import Mathlib

/-!
Verification of the MethodicConfigurator vehicle-components engine.

This file gives a shallow embedding of the component-document operations of
the repository (backend_filesystem_vehicle_components.py,
update_vehicle_templates.py, frontend_tkinter_component_editor_base.py) and
proves or refutes the frozen claims about them.

Python values are modelled by the `Json` inductive; Python's exception
behaviour is modelled by `Except PyErr`.  A key point of fidelity: in Python
`bool` is a subclass of `int`, so `isinstance(True, (int, float))` is true;
the embedding of `_recursively_clear_dict` reflects this.
-/

/-- JSON-like values: the Python data model used by the configurator
(dictionaries keep insertion order, as Python dicts do). -/
inductive Json where
  | null
  | bool (b : Bool)
  | int (n : Int)
  | float (q : Rat)
  | str (s : String)
  | arr (elems : List Json)
  | dict (entries : List (String × Json))

theorem Json.sizeOf_lt_of_mem_arr {x : Json} {xs : List Json} (h : x ∈ xs) :
    sizeOf x < sizeOf (Json.arr xs) := by
  have := List.sizeOf_lt_of_mem h
  simp only [Json.arr.sizeOf_spec]
  omega

theorem Json.sizeOf_lt_of_mem_dict {p : String × Json} {kvs : List (String × Json)}
    (h : p ∈ kvs) : sizeOf p.2 < sizeOf (Json.dict kvs) := by
  have h1 := List.sizeOf_lt_of_mem h
  have h2 : sizeOf p.2 < sizeOf p := by
    obtain ⟨k, v⟩ := p
    simp
  simp only [Json.dict.sizeOf_spec]
  omega

/-- Structural induction for Json that recurses through lists of entries. -/
def Json.indOn {P : Json → Prop}
    (hnull : P .null) (hbool : ∀ b, P (.bool b)) (hint : ∀ n, P (.int n))
    (hfloat : ∀ q, P (.float q)) (hstr : ∀ s, P (.str s))
    (harr : ∀ xs, (∀ x ∈ xs, P x) → P (.arr xs))
    (hdict : ∀ kvs, (∀ p ∈ kvs, P p.2) → P (.dict kvs)) :
    ∀ j, P j
  | .null => hnull
  | .bool b => hbool b
  | .int n => hint n
  | .float q => hfloat q
  | .str s => hstr s
  | .arr xs => harr xs (fun x _ => Json.indOn hnull hbool hint hfloat hstr harr hdict x)
  | .dict kvs => hdict kvs (fun p _ => Json.indOn hnull hbool hint hfloat hstr harr hdict p.2)
termination_by j => sizeOf j
decreasing_by
  · exact Json.sizeOf_lt_of_mem_arr (by assumption)
  · exact Json.sizeOf_lt_of_mem_dict (by assumption)

mutual
def Json.beq : Json → Json → Bool
  | .null, .null => true
  | .bool a, .bool b => a == b
  | .int a, .int b => a == b
  | .float a, .float b => a == b
  | .str a, .str b => a == b
  | .arr xs, .arr ys => Json.beqList xs ys
  | .dict xs, .dict ys => Json.beqPairs xs ys
  | _, _ => false

def Json.beqList : List Json → List Json → Bool
  | [], [] => true
  | x :: xs, y :: ys => Json.beq x y && Json.beqList xs ys
  | _, _ => false

def Json.beqPairs : List (String × Json) → List (String × Json) → Bool
  | [], [] => true
  | (k, v) :: xs, (k2, v2) :: ys => k == k2 && Json.beq v v2 && Json.beqPairs xs ys
  | _, _ => false
end

theorem Json.beqList_iff (xs : List Json)
    (IH : ∀ x ∈ xs, ∀ b, Json.beq x b = true ↔ x = b) :
    ∀ ys, Json.beqList xs ys = true ↔ xs = ys := by
  induction xs with
  | nil => intro ys; cases ys <;> simp [Json.beqList]
  | cons x xs ih =>
    intro ys
    cases ys with
    | nil => simp [Json.beqList]
    | cons y ys =>
      simp only [Json.beqList, Bool.and_eq_true, List.cons.injEq]
      rw [IH x (by simp) y, ih (fun a ha b => IH a (by simp [ha]) b) ys]

theorem Json.beqPairs_iff (kvs : List (String × Json))
    (IH : ∀ p ∈ kvs, ∀ b, Json.beq p.2 b = true ↔ p.2 = b) :
    ∀ ys, Json.beqPairs kvs ys = true ↔ kvs = ys := by
  induction kvs with
  | nil => intro ys; cases ys <;> simp [Json.beqPairs]
  | cons p kvs ih =>
    intro ys
    obtain ⟨k, v⟩ := p
    cases ys with
    | nil => simp [Json.beqPairs]
    | cons q ys =>
      obtain ⟨k2, v2⟩ := q
      simp only [Json.beqPairs, Bool.and_eq_true, List.cons.injEq, Prod.mk.injEq, beq_iff_eq]
      rw [IH (k, v) (by simp) v2, ih (fun a ha b => IH a (by simp [ha]) b) ys]

theorem Json.beq_iff : ∀ a b : Json, Json.beq a b = true ↔ a = b := by
  intro a
  induction a using Json.indOn with
  | hnull => intro b; cases b <;> simp [Json.beq]
  | hbool x => intro b; cases b <;> simp [Json.beq]
  | hint x => intro b; cases b <;> simp [Json.beq]
  | hfloat x => intro b; cases b <;> simp [Json.beq]
  | hstr x => intro b; cases b <;> simp [Json.beq]
  | harr xs IH =>
    intro b
    cases b <;> simp [Json.beq]
    exact Json.beqList_iff xs IH _
  | hdict kvs IH =>
    intro b
    cases b <;> simp [Json.beq]
    exact Json.beqPairs_iff kvs IH _

instance : DecidableEq Json := fun a b => decidable_of_iff _ (Json.beq_iff a b)

/-- Python exceptions that the embedded code can raise. -/
inductive PyErr where
  | keyError (k : String)
  | typeError
  | attributeError
  deriving DecidableEq

instance {e a : Type} [DecidableEq e] [DecidableEq a] : DecidableEq (Except e a) :=
  fun x y =>
    match x, y with
    | .ok v, .ok w => if h : v = w then isTrue (by rw [h]) else isFalse (by simp [h])
    | .error v, .error w => if h : v = w then isTrue (by rw [h]) else isFalse (by simp [h])
    | .ok _, .error _ => isFalse (by simp)
    | .error _, .ok _ => isFalse (by simp)

/-- Association-list lookup, the reading of a Python dict. -/
def lookupJ : List (String × Json) → String → Option Json
  | [], _ => none
  | (k', v) :: rest, k => if k' = k then some v else lookupJ rest k

/-- Whether a Python dict has a key. -/
def hasKey (kvs : List (String × Json)) (k : String) : Bool :=
  (lookupJ kvs k).isSome

/-- Python dict item assignment: update in place if the key exists
(keeping its position), else append at the end. -/
def setEntry : List (String × Json) → String → Json → List (String × Json)
  | [], k, v => [(k, v)]
  | (k', v') :: rest, k, v =>
    if k' = k then (k', v) :: rest else (k', v') :: setEntry rest k v

/-- Python dict.pop: remove the entry for a key (a Python dict never holds
a duplicate key, so removing every occurrence coincides with removing the
entry). -/
def removeEntry : List (String × Json) → String → List (String × Json)
  | [], _ => []
  | (k', v') :: rest, k =>
    if k' = k then removeEntry rest k else (k', v') :: removeEntry rest k

/-- Python truthiness of a value. -/
def pyTruthy : Json → Bool
  | .null => false
  | .bool b => b
  | .int n => n != 0
  | .float q => q != 0
  | .str s => s ≠ ""
  | .arr xs => xs ≠ []
  | .dict kvs => kvs ≠ []

/-- Python `x[k]` for a string key: succeeds only on dicts; raises KeyError
when the key is absent and TypeError on any non-dict. -/
def dictGet : Json → String → Except PyErr Json
  | .dict kvs, k =>
    match lookupJ kvs k with
    | some v => .ok v
    | none => .error (.keyError k)
  | _, _ => .error .typeError

/-- Python `x[k] = v` for a string key: succeeds only on dicts. -/
def dictSet : Json → String → Json → Except PyErr Json
  | .dict kvs, k, v => .ok (.dict (setEntry kvs k v))
  | _, _, _ => .error .typeError

/-- Python `x.pop(k)`: returns the removed value and the remaining dict;
AttributeError on non-dicts (they have no pop method taking a string here). -/
def dictPop : Json → String → Except PyErr (Json × Json)
  | .dict kvs, k =>
    match lookupJ kvs k with
    | some v => .ok (v, .dict (removeEntry kvs k))
    | none => .error (.keyError k)
  | _, _ => .error .attributeError

/-- Python `x.get(k, default)`: dict method, AttributeError on non-dicts. -/
def pyGetD (x : Json) (k : String) (default : Json) : Except PyErr Json :=
  match x with
  | .dict kvs =>
    match lookupJ kvs k with
    | some v => .ok v
    | none => .ok default
  | _ => .error .attributeError

/-- Whether the first list starts the second, on characters. -/
def listIsPrefixOfB : List Char → List Char → Bool
  | [], _ => true
  | _ :: _, [] => false
  | a :: as, b :: bs => a = b && listIsPrefixOfB as bs

/-- Whether the first list occurs inside the second (Python substring
containment; the empty string is contained in everything). -/
def listIsInfixOfB : List Char → List Char → Bool
  | n, [] => n = []
  | n, c :: t => listIsPrefixOfB n (c :: t) || listIsInfixOfB n t

/-- Python `k in x` for a string k: key membership on dicts, substring test
on strings, element equality on lists, TypeError otherwise. -/
def pyIn (k : String) : Json → Except PyErr Bool
  | .dict kvs => .ok (hasKey kvs k)
  | .str s => .ok (listIsInfixOfB k.data s.data)
  | .arr xs => .ok (xs.any (fun x => match x with | .str s => k = s | _ => false))
  | _ => .error .typeError

/-- Pure path lookup in a document: follows dict entries only. -/
def resolve : Json → List String → Option Json
  | j, [] => some j
  | .dict kvs, k :: ks =>
    match lookupJ kvs k with
    | some v => resolve v ks
    | none => none
  | _, _ :: _ => none

theorem lookupJ_setEntry_self (kvs : List (String × Json)) (k : String) (v : Json) :
    lookupJ (setEntry kvs k v) k = some v := by
  induction kvs with
  | nil => simp [setEntry, lookupJ]
  | cons p rest ih =>
    obtain ⟨k', v'⟩ := p
    by_cases h : k' = k <;> simp [setEntry, lookupJ, h, ih]

theorem lookupJ_setEntry_other (kvs : List (String × Json)) (k k2 : String) (v : Json)
    (h : k2 ≠ k) : lookupJ (setEntry kvs k v) k2 = lookupJ kvs k2 := by
  induction kvs with
  | nil => simp [setEntry, lookupJ, Ne.symm h]
  | cons p rest ih =>
    obtain ⟨k', v'⟩ := p
    by_cases hk : k' = k
    · subst hk
      simp [setEntry, lookupJ, Ne.symm h]
    · by_cases hk2 : k' = k2
      · subst hk2
        simp [setEntry, lookupJ, hk, if_neg hk]
      · simp [setEntry, lookupJ, hk, hk2, ih]

theorem setEntry_of_lookupJ_eq (kvs : List (String × Json)) (k : String) (v : Json)
    (h : lookupJ kvs k = some v) : setEntry kvs k v = kvs := by
  induction kvs with
  | nil => simp [lookupJ] at h
  | cons p rest ih =>
    obtain ⟨k', v'⟩ := p
    by_cases hk : k' = k
    · subst hk
      simp [lookupJ] at h
      simp [setEntry, h]
    · simp [lookupJ, hk] at h
      simp [setEntry, hk, ih h]

theorem lookupJ_removeEntry_other (kvs : List (String × Json)) (k k2 : String)
    (h : k2 ≠ k) : lookupJ (removeEntry kvs k) k2 = lookupJ kvs k2 := by
  induction kvs with
  | nil => simp [removeEntry]
  | cons p rest ih =>
    obtain ⟨k', v'⟩ := p
    by_cases hk : k' = k
    · subst hk
      simp [removeEntry, lookupJ, Ne.symm h, ih]
    · simp [removeEntry, lookupJ, hk, ih]

theorem lookupJ_removeEntry_self (kvs : List (String × Json)) (k : String) :
    lookupJ (removeEntry kvs k) k = none := by
  induction kvs with
  | nil => simp [removeEntry, lookupJ]
  | cons p rest ih =>
    obtain ⟨k', v'⟩ := p
    by_cases hk : k' = k
    · simp [removeEntry, hk, ih]
    · simp [removeEntry, lookupJ, hk, ih]

theorem hasKey_setEntry (kvs : List (String × Json)) (k k2 : String) (v : Json) :
    hasKey (setEntry kvs k v) k2 = (hasKey kvs k2 || (k2 == k)) := by
  by_cases h : k2 = k
  · subst h
    simp [hasKey, lookupJ_setEntry_self]
  · simp [hasKey, lookupJ_setEntry_other kvs k k2 v h, h]

theorem setEntry_length_of_not_hasKey (kvs : List (String × Json)) (k : String) (v : Json)
    (h : hasKey kvs k = false) : (setEntry kvs k v).length = kvs.length + 1 := by
  induction kvs with
  | nil => simp [setEntry]
  | cons p rest ih =>
    obtain ⟨k', v'⟩ := p
    by_cases hk : k' = k
    · subst hk
      simp [hasKey, lookupJ] at h
    · simp only [hasKey, lookupJ, hk, if_false, if_neg hk] at h
      simp [setEntry, hk, ih h]

/-! ## StructuralMutator: wipe to defaults

Embedding of `VehicleComponents._recursively_clear_dict`.  The Python code
dispatches on `isinstance` checks in this order: dict, list, (int, float),
bool, str/other.  Because Python's `bool` is a subclass of `int`, a boolean
value satisfies `isinstance(value, (int, float))` and is assigned
`0 if isinstance(value, int) else 0.0`, i.e. the integer 0; the
`isinstance(value, bool)` branch below it can never be reached. -/

mutual
/-- Per-value clearing as applied to each dict entry by
`_recursively_clear_dict`'s loop body. -/
def clearVal : Json → Json
  | .dict kvs => .dict (clearPairs kvs)
  | .arr _ => .arr []
  | .bool _ => .int 0
  | .int _ => .int 0
  | .float _ => .float 0
  | .str _ => .str ""
  | .null => .null

def clearPairs : List (String × Json) → List (String × Json)
  | [] => []
  | (k, v) :: rest => (k, clearVal v) :: clearPairs rest
end

/-- Embeds `VehicleComponents._recursively_clear_dict`: non-dict arguments
are returned unchanged (the function returns immediately), dicts have every
entry's value cleared in place. -/
def recursivelyClearDict : Json → Json
  | .dict kvs => .dict (clearPairs kvs)
  | j => j

/-- The tree of dictionary keys of a document: what `wipe` must preserve.
Anything that is not a dict is an unstructured leaf. -/
inductive KeyTree where
  | leaf
  | node (children : List (String × KeyTree))

mutual
def keyStructure : Json → KeyTree
  | .dict kvs => .node (keyStructurePairs kvs)
  | _ => .leaf

def keyStructurePairs : List (String × Json) → List (String × KeyTree)
  | [] => []
  | (k, v) :: rest => (k, keyStructure v) :: keyStructurePairs rest
end

/-- A cleared leaf value: one of the type-appropriate defaults that
`_recursively_clear_dict` writes. -/
def isDefaultLeaf : Json → Bool
  | .arr xs => xs = []
  | .int n => n = 0
  | .float q => q = 0
  | .str s => s = ""
  | .null => true
  | _ => false

mutual
/-- Every value reachable through dict nesting is either a dict itself or a
default leaf value. -/
def defaultedBelow : Json → Bool
  | .dict kvs => defaultedBelowPairs kvs
  | _ => true

def defaultedBelowPairs : List (String × Json) → Bool
  | [] => true
  | (_, v) :: rest =>
    (match v with
     | .dict kvs => defaultedBelowPairs kvs
     | w => isDefaultLeaf w) && defaultedBelowPairs rest
end

/-! ## Firmware type and version accessors -/

/-- Strips leading whitespace, as Python str.lstrip(). -/
def pyLStrip (s : String) : String := ⟨s.data.dropWhile Char.isWhitespace⟩

/-- Strips leading and trailing whitespace, as Python str.strip(). -/
def pyStrip (s : String) : String :=
  ⟨((s.data.dropWhile Char.isWhitespace).reverse.dropWhile Char.isWhitespace).reverse⟩

/-- Splitting at every occurrence of a separator character, as Python
str.split with an explicit one-character separator (the empty string splits
to one empty group). -/
def splitOnChar (sep : Char) : List Char → List (List Char)
  | [] => [[]]
  | c :: rest =>
    if c = sep then [] :: splitOnChar sep rest
    else
      match splitOnChar sep rest with
      | g :: gs => (c :: g) :: gs
      | [] => [[c]]

/-- Exactly digits '.' digits '.' digits, all groups nonempty. -/
def isDigitTriple (s : String) : Bool :=
  match splitOnChar '.' s.data with
  | [a, b, c] =>
    a ≠ [] && b ≠ [] && c ≠ [] &&
      a.all Char.isDigit && b.all Char.isDigit && c.all Char.isDigit
  | _ => false

/-- Python re.match of the anchored pattern digits.digits.digits: the dollar
anchor also matches just before a single trailing newline. -/
def reMatchTriple (s : String) : Bool :=
  isDigitTriple s ||
    (match s.data.getLast? with
     | some c => c = '\n' && isDigitTriple (String.mk s.data.dropLast)
     | none => false)

/-- The part of a string before its first space: Python
str.split(" ")[0] with the explicit single-space separator. -/
def firstSpaceToken (s : String) : String :=
  String.mk (s.data.takeWhile (fun c => c ≠ ' '))

/-- Embeds VehicleComponents.supported_vehicles. -/
def supported_vehicles : List String :=
  ["AP_Periph", "AntennaTracker", "ArduCopter", "ArduPlane", "ArduSub", "Blimp",
   "Heli", "Rover", "SITL"]

/-- Embeds the shared head of both firmware accessors: `components` is
`self.vehicle_components["Components"]` when `self.vehicle_components` is
truthy and contains that key, else None. -/
def fwComponentsOf (vc : Json) : Except PyErr Json := do
  if pyTruthy vc then
    if (← pyIn "Components" vc) then dictGet vc "Components" else pure Json.null
  else pure Json.null

/-- Embeds VehicleComponents.get_fc_fw_type_from_vehicle_components_json.
A non-string Type value is never an element of the tuple of supported
firmware names, so membership fails for it just as in Python. -/
def getFcFwTypeFromVehicleComponentsJson (vc : Json) : Except PyErr String := do
  let components ← fwComponentsOf vc
  if pyTruthy components then
    let fc ← pyGetD components "Flight Controller" (.dict [])
    let fw ← pyGetD fc "Firmware" (.dict [])
    let t ← pyGetD fw "Type" (.str "")
    match t with
    | .str s => if supported_vehicles.contains s then return s else return ""
    | _ => return ""
  else
    return ""

/-- Embeds VehicleComponents.get_fc_fw_version_from_vehicle_components_json:
leading whitespace is stripped, the token before the first space is taken,
and it is returned when it matches the anchored digits.digits.digits
pattern; every other case yields the empty string.  Calling .lstrip() on a
truthy non-string Version value raises AttributeError. -/
def getFcFwVersionFromVehicleComponentsJson (vc : Json) : Except PyErr String := do
  let components ← fwComponentsOf vc
  if pyTruthy components then
    let fc ← pyGetD components "Flight Controller" (.dict [])
    let fw ← pyGetD fc "Firmware" (.dict [])
    let ver ← pyGetD fw "Version" (.str "")
    let versionStr ←
      if pyTruthy ver then
        match ver with
        | .str s => pure (firstSpaceToken (pyLStrip s))
        | _ => Except.error PyErr.attributeError
      else pure ""
    if reMatchTriple versionStr then return versionStr else return ""
  else
    return ""

/-- The version extraction as the amended claim words it: strip leading
whitespace, take the token before the first space, and keep it exactly when
the whole token is digits.digits.digits (the anchored pattern, which also
tolerates one trailing newline); text attached to the token without a space
separator, e.g. "-dev", is not discarded, so such a token yields "". -/
def firmwareVersionSpec (s : String) : String :=
  let token := firstSpaceToken (pyLStrip s)
  if reMatchTriple token then token else ""

/-! ## Saving: error taxonomy of save_vehicle_components_json_data -/

/-- Embeds self.vehicle_components_json_filename. -/
def vehicleComponentsJsonFilename : String := "vehicle_components.json"

/-- POSIX os.path.join for one component. -/
def osPathJoin (a b : String) : String := a ++ "/" ++ b

/-- The outcome of the attempt to open the target file and serialize the
document into it: either it works, or one of the exceptions of the
try/except ladder in save_vehicle_components_json_data is raised (the
string carries str(e) for the exception kinds that interpolate it). -/
inductive WriteOutcome where
  | success
  | fileNotFound
  | permissionError
  | isADirectoryError
  | osError (e : String)
  | typeErrorExc (e : String)
  | valueErrorExc (e : String)
  | unexpected (e : String)
  deriving DecidableEq

/-- Embeds VehicleComponents.save_vehicle_components_json_data: the
document is written whole; each exception kind is caught and converted into
(True, message) with its own message; success returns (False, ""). -/
def saveVehicleComponentsJsonData (data : Json) (vehicleDir : String)
    (outcome : WriteOutcome) : Bool × String :=
  let filepath := osPathJoin vehicleDir vehicleComponentsJsonFilename
  match outcome with
  | .success => (false, "")
  | .fileNotFound => (true, "Directory '" ++ vehicleDir ++ "' not found")
  | .permissionError => (true, "Permission denied when writing to file '" ++ filepath ++ "'")
  | .isADirectoryError => (true, "Path '" ++ filepath ++ "' is a directory, not a file")
  | .osError e => (true, "OS error when writing to file '" ++ filepath ++ "': " ++ e)
  | .typeErrorExc e => (true, "Type error when serializing data to JSON: " ++ e)
  | .valueErrorExc e => (true, "Value error when serializing data to JSON: " ++ e)
  | .unexpected e => (true, "Unexpected error saving data to file '" ++ filepath ++ "': " ++ e)

/-! ## Validation -/

theorem sizeOf_of_lookupJ {kvs : List (String × Json)} {k : String} {v : Json}
    (h : lookupJ kvs k = some v) : sizeOf v < sizeOf (Json.dict kvs) := by
  induction kvs with
  | nil => simp [lookupJ] at h
  | cons p rest ih =>
    obtain ⟨k', v'⟩ := p
    by_cases hk : k' = k
    · subst hk
      simp [lookupJ] at h
      subst h
      simp
      omega
    · simp [lookupJ, hk] at h
      have := ih h
      simp at this ⊢
      omega

/-- Whether a JSON value is of a JSON-Schema primitive type. -/
def typeMatches (t : String) (v : Json) : Bool :=
  match t with
  | "object" => match v with | .dict _ => true | _ => false
  | "array" => match v with | .arr _ => true | _ => false
  | "string" => match v with | .str _ => true | _ => false
  | "boolean" => match v with | .bool _ => true | _ => false
  | "integer" => match v with | .int _ => true | _ => false
  | "number" => match v with | .int _ => true | .float _ => true | _ => false
  | "null" => match v with | .null => true | _ => false
  | _ => true

/-- First entry of a required list that is missing from the instance. -/
def firstMissingRequired : List Json → List (String × Json) → Option String
  | [], _ => none
  | .str r :: rest, kvs =>
    if hasKey kvs r then firstMissingRequired rest kvs
    else some ("'" ++ r ++ "' is a required property")
  | _ :: rest, kvs => firstMissingRequired rest kvs

/-- The type-keyword check of a schema node against an instance. -/
def typeErrOf (sch : List (String × Json)) (inst : Json) : Option String :=
  match lookupJ sch "type" with
  | some (.str t) =>
    if typeMatches t inst then none else some ("is not of type '" ++ t ++ "'")
  | _ => none

/-- The required-keyword check of a schema node against an instance
(required is only checked on object instances). -/
def requiredErrOf (sch : List (String × Json)) (inst : Json) : Option String :=
  match lookupJ sch "required", inst with
  | some (.arr reqs), .dict kvs => firstMissingRequired reqs kvs
  | _, _ => none

mutual
/-- Modelled from the spec: the external jsonschema library's validate, the
code of which is not part of this repository.  Standard JSON-Schema
structural validation of type, required and properties keywords; returns
the first validation error's message, or none when the instance validates.
(The spec: "performs standard JSON-Schema structural validation (required
fields, types, enumerations as declared in the schema) and returns the
first validation error's message on failure".) -/
def jsValidate : Json → Json → Option String
  | .dict sch, inst =>
    match typeErrOf sch inst with
    | some e => some e
    | none =>
      match requiredErrOf sch inst with
      | some e => some e
      | none => jsValidateSchemaEntries sch inst
  | _, _ => none

/-- Scans the schema node's entries for the properties keyword and checks
the instance against it (entry scan and lookupJ agree: keys are unique). -/
def jsValidateSchemaEntries : List (String × Json) → Json → Option String
  | [], _ => none
  | (k, v) :: rest, inst =>
    if k = "properties" then
      match v, inst with
      | .dict props, .dict kvs => jsValidateProps props kvs
      | _, _ => none
    else jsValidateSchemaEntries rest inst

/-- Validates each declared property that is present in the instance
against its subschema, returning the first error. -/
def jsValidateProps : List (String × Json) → List (String × Json) → Option String
  | [], _ => none
  | (k, sub) :: rest, kvs =>
    match lookupJ kvs k with
    | some v =>
      match jsValidate sub v with
      | some e => some e
      | none => jsValidateProps rest kvs
    | none => jsValidateProps rest kvs
end

/-- Embeds VehicleComponents.validate_vehicle_components.  The schema
argument stands for what load_schema returned (the cached schema dict, or
the empty dict when the schema resource is missing or malformed). -/
def validateVehicleComponents (schema data : Json) : Bool × String :=
  if ¬ pyTruthy schema then (false, "Could not load validation schema")
  else
    match jsValidate schema data with
    | none => (true, "")
    | some m => (false, "Validation error: " ++ m)

/-! ## MigrationEngine: update_vehicle_components -/

/-- Modelled from the spec: the current engine version string stamped into
"Program version" (the package's __version__ attribute, whose definition is
not part of the given sources).  It is a fixed constant of the
installation; its concrete value is irrelevant to every claim. -/
def programVersion : String := "2.0.0"

/-- One `if key not in data[p1]...[pn]: data[p1]...[pn][key] = v` block of
update_vehicle_components, navigating the key path with Python subscript
semantics.  When the membership test succeeds nothing changes; re-writing
the unchanged child back along the path is the identity on dicts, matching
Python's in-place mutation. -/
def ensureRec : Json → List String → String → Json → Except PyErr Json
  | data, [], k, v => do
    let b ← pyIn k data
    if b then pure data else dictSet data k v
  | data, p :: ps, k, v => do
    let child ← dictGet data p
    let child2 ← ensureRec child ps k v
    dictSet data p child2

/-- The block: if "GNSS receiver" in data["Components"]:
data["Components"]["GNSS Receiver"] = data["Components"].pop("GNSS receiver"). -/
def renameGnss (data : Json) : Except PyErr Json := do
  let comps ← dictGet data "Components"
  let b ← pyIn "GNSS receiver" comps
  if b then
    let pv ← dictPop comps "GNSS receiver"
    let comps2 ← dictSet pv.2 "GNSS Receiver" pv.1
    dictSet data "Components" comps2
  else pure data

/-- The final block of update_vehicle_components: when
"Specifications" is not in data["Components"]["Flight Controller"], the
whole Flight Controller mapping is rebuilt from its Product, Firmware and
Notes entries plus a fresh Specifications dict (reading a missing entry
raises KeyError, in the order the dict literal evaluates them). -/
def ensureFcSpecifications (data : Json) : Except PyErr Json := do
  let comps ← dictGet data "Components"
  let fc ← dictGet comps "Flight Controller"
  let b ← pyIn "Specifications" fc
  if b then pure data
  else do
    let product ← dictGet fc "Product"
    let firmware ← dictGet fc "Firmware"
    let notes ← dictGet fc "Notes"
    let fc2 := Json.dict
      [("Product", product), ("Firmware", firmware),
       ("Specifications", Json.dict [("MCU Series", Json.str "Unknown")]),
       ("Notes", notes)]
    let comps2 ← dictSet comps "Flight Controller" fc2
    dictSet data "Components" comps2

/-- Embeds update_vehicle_components of update_vehicle_templates.py as a
pure state transformation; a raised Python exception becomes an error. -/
def updateVehicleComponents (data : Json) : Except PyErr Json :=
  if ¬ pyTruthy data then Except.ok (Json.dict []) else do
    let d ← ensureRec data [] "Components" (.dict [])
    let d ← ensureRec d ["Components"] "Battery" (.dict [])
    let d ← ensureRec d ["Components", "Battery"] "Specifications" (.dict [])
    let d ← ensureRec d ["Components", "Battery", "Specifications"] "Chemistry" (.str "Lipo")
    let d ← ensureRec d ["Components", "Battery", "Specifications"] "Capacity mAh" (.int 0)
    let d ← ensureRec d ["Components"] "Frame" (.dict [])
    let d ← ensureRec d ["Components", "Frame"] "Specifications" (.dict [])
    let d ← ensureRec d ["Components", "Frame", "Specifications"] "TOW min Kg" (.int 1)
    let d ← ensureRec d ["Components", "Frame", "Specifications"] "TOW max Kg" (.int 1)
    let d ← renameGnss d
    let d ← dictSet d "Program version" (.str programVersion)
    let d ← ensureRec d ["Components"] "Flight Controller" (.dict [])
    ensureFcSpecifications d

/-! ## Frontend: save_component_json value coercion -/

/-- Digits of an ASCII decimal literal to a natural number. -/
def digitsToNat (l : List Char) : Nat :=
  l.foldl (fun acc c => acc * 10 + (c.toNat - 48)) 0

/-- Python int(string): surrounding whitespace allowed, optional sign, then
one or more ASCII digits (digit-group underscores are not modelled). -/
def pyIntParse (s : String) : Option Int :=
  let t := ((s.data.dropWhile Char.isWhitespace).reverse.dropWhile Char.isWhitespace).reverse
  match t with
  | [] => none
  | c :: rest =>
    let signed : Int × List Char :=
      if c = '+' then (1, rest) else if c = '-' then (-1, rest) else (1, c :: rest)
    if signed.2 ≠ [] ∧ signed.2.all Char.isDigit then
      some (signed.1 * (digitsToNat signed.2 : Int))
    else none

/-- Splits a char list at the first occurrence of one of two separators. -/
def splitAtFirst (seps : List Char) : List Char → Option (List Char × List Char)
  | [] => none
  | c :: rest =>
    if c ∈ seps then some ([], rest)
    else match splitAtFirst seps rest with
      | some (a, b) => some (c :: a, b)
      | none => none

/-- Mantissa part of a Python float literal: optional sign, digits with an
optional dot somewhere, at least one digit overall. -/
def parseMantissa (l : List Char) : Option Rat :=
  match l with
  | [] => none
  | c :: rest =>
    let signed : Rat × List Char :=
      if c = '+' then (1, rest) else if c = '-' then (-1, rest) else (1, c :: rest)
    match splitAtFirst ['.'] signed.2 with
    | some (ip, fp) =>
      if (ip ≠ [] ∨ fp ≠ []) ∧ ip.all Char.isDigit ∧ fp.all Char.isDigit then
        some (signed.1 * (digitsToNat (ip ++ fp) : Rat) / ((10 : Rat) ^ fp.length))
      else none
    | none =>
      if signed.2 ≠ [] ∧ signed.2.all Char.isDigit then
        some (signed.1 * (digitsToNat signed.2 : Rat))
      else none

/-- Python float(string): surrounding whitespace allowed, a decimal
mantissa and an optional exponent part ("inf"/"nan" literals are not
modelled; they never arise from the claims). -/
def pyFloatParse (s : String) : Option Rat :=
  let t := ((s.data.dropWhile Char.isWhitespace).reverse.dropWhile Char.isWhitespace).reverse
  match splitAtFirst ['e', 'E'] t with
  | some (m, ex) => do
    let mant ← parseMantissa m
    let expn ← pyIntParse ⟨ex⟩
    pure (mant * (10 : Rat) ^ expn)
  | none => do
    let mant ← parseMantissa t
    pure mant

/-- Embeds the value coercion of ComponentEditorWindowBase.save_component_json:
the entered string of a non-Version entry is tried as int, then as float,
then kept as a stripped string; a Version entry keeps the raw string. -/
def coerceComponentValue (lastKey : String) (raw : String) : Json :=
  if lastKey ≠ "Version" then
    match pyIntParse raw with
    | some n => .int n
    | none =>
      match pyFloatParse raw with
      | some q => .float q
      | none => .str (pyStrip raw)
  else .str raw

/-- The coercion as the claim words it: an entry whose path's final key
equals "Version" is stored as the raw entered string with no coercion;
every other entry is stored as the integer parse of the string if it
succeeds, otherwise the float parse if it succeeds, otherwise the
whitespace-stripped string. -/
def coerceComponentValueSpec (lastKey : String) (raw : String) : Json :=
  if lastKey = "Version" then .str raw
  else
    match pyIntParse raw with
    | some n => .int n
    | none =>
      match pyFloatParse raw with
      | some q => .float q
      | none => .str (pyStrip raw)

/-- Navigation and assignment of one entry:
current_data = self.data["Components"]; for key in path[:-1]:
current_data = current_data[key]; current_data[path[-1]] = value; as a pure
read-rebuild along the path (equal to Python's in-place write). -/
def assignAt : Json → List String → String → Json → Except PyErr Json
  | d, [], k, v => dictSet d k v
  | d, p :: ps, k, v => do
    let child ← dictGet d p
    let child2 ← assignAt child ps k v
    dictSet d p child2

/-- Embeds the write-back loop of save_component_json over the entry
widgets: each (path, raw entered text) pair is coerced and assigned at
"Components" ++ path.  An empty path cannot index path[-1]. -/
def saveComponentJson (data : Json) (entries : List (List String × String)) :
    Except PyErr Json :=
  entries.foldlM
    (fun d pr =>
      match pr.1.getLast? with
      | some k => assignAt d ("Components" :: pr.1.dropLast) k (coerceComponentValue k pr.2)
      | none => .error .typeError)
    data

/-! ## The current shape, for the migration frame claim -/

/-- Shapes describe the structure the migration pass establishes: a node
lists the fields the current format requires, the fields it knows but does
not require, and the deprecated key it forbids; a leaf position is either
unconstrained or a fixed string. -/
inductive Shape where
  | any
  | strConst (s : String)
  | node (required : List (String × Shape)) (opt : List (String × Shape))
      (forbidden : List String)

theorem Shape.sizeOf_lt_of_mem_req {p : String × Shape}
    {req opt : List (String × Shape)} {forb : List String} (h : p ∈ req) :
    sizeOf p.2 < sizeOf (Shape.node req opt forb) := by
  have h1 := List.sizeOf_lt_of_mem h
  have h2 : sizeOf p.2 < sizeOf p := by
    obtain ⟨k, v⟩ := p
    simp
  simp only [Shape.node.sizeOf_spec]
  omega

theorem Shape.sizeOf_lt_of_mem_opt {p : String × Shape}
    {req opt : List (String × Shape)} {forb : List String} (h : p ∈ opt) :
    sizeOf p.2 < sizeOf (Shape.node req opt forb) := by
  have h1 := List.sizeOf_lt_of_mem h
  have h2 : sizeOf p.2 < sizeOf p := by
    obtain ⟨k, v⟩ := p
    simp
  simp only [Shape.node.sizeOf_spec]
  omega

/-- Association-list lookup over shape fields. -/
def lookupShape : List (String × Shape) → String → Option Shape
  | [], _ => none
  | (k', s) :: rest, k => if k' = k then some s else lookupShape rest k

mutual
/-- Whether a value conforms to a shape: a node value must be a mapping
with every required field present and conforming, every known optional
field conforming when present, and no forbidden key. -/
def conforms : Shape → Json → Bool
  | .any, _ => true
  | .strConst s, j => match j with | .str t => s = t | _ => false
  | .node req opt forb, j =>
    match j with
    | .dict kvs =>
      conformsReq req kvs && conformsOpt opt kvs && forb.all (fun k => !hasKey kvs k)
    | _ => false
termination_by s _ => sizeOf s
decreasing_by
  · simp
    omega
  · simp
    omega

def conformsReq : List (String × Shape) → List (String × Json) → Bool
  | [], _ => true
  | (k, sh) :: rest, kvs =>
    (match lookupJ kvs k with | some v => conforms sh v | none => false) &&
      conformsReq rest kvs
termination_by l _ => sizeOf l
decreasing_by
  all_goals simp
  all_goals omega

def conformsOpt : List (String × Shape) → List (String × Json) → Bool
  | [], _ => true
  | (k, sh) :: rest, kvs =>
    (match lookupJ kvs k with | some v => conforms sh v | none => true) &&
      conformsOpt rest kvs
termination_by l _ => sizeOf l
decreasing_by
  all_goals simp
  all_goals omega
end

/-- The shape at a key path below a shape node. -/
def shapeAt : Shape → List String → Option Shape
  | s, [] => some s
  | .node req opt _, k :: ks =>
    (match lookupShape req k with
     | some sh => shapeAt sh ks
     | none =>
       match lookupShape opt k with
       | some sh => shapeAt sh ks
       | none => none)
  | _, _ :: _ => none

/-- The current shape of the battery specifications subtree. -/
def batterySpecShape : Shape := .node [("Chemistry", .any), ("Capacity mAh", .any)] [] []

/-- The current shape of the Battery component. -/
def batteryShape : Shape := .node [("Specifications", batterySpecShape)] [] []

/-- The current shape of the frame specifications subtree. -/
def frameSpecShape : Shape := .node [("TOW min Kg", .any), ("TOW max Kg", .any)] [] []

/-- The current shape of the Frame component. -/
def frameShape : Shape := .node [("Specifications", frameSpecShape)] [] []

/-- The current shape of the Flight Controller component: Specifications
must exist; Product, Firmware and Notes are known fields. -/
def flightControllerShape : Shape :=
  .node [("Specifications", .any)]
    [("Product", .any), ("Firmware", .any), ("Notes", .any)] []

/-- The current shape of the Components mapping: the deprecated lowercase
"GNSS receiver" key is forbidden; its current name is a known field. -/
def componentsShape : Shape :=
  .node [("Battery", batteryShape), ("Frame", frameShape),
         ("Flight Controller", flightControllerShape)]
    [("GNSS Receiver", .any)] ["GNSS receiver"]

/-- The current shape of a whole document after migration. -/
def currentShape : Shape :=
  .node [("Components", componentsShape), ("Program version", .strConst programVersion)] [] []

/-! ## Verification-side predicates -/

/-- The membership guard of one ensure block holds: the key path navigates
successfully and the final `in` test is true. -/
def pathOk : Json → List String → String → Prop
  | d, [], k => pyIn k d = .ok true
  | d, p :: ps, k => ∃ c, dictGet d p = .ok c ∧ pathOk c ps k

/-- Every node visited along the path that exists is a mapping (so the
Python membership tests on the path are real key tests, not substring
tests). -/
def mapsAlong : Json → List String → Bool
  | _, [] => true
  | .dict kvs, k :: ks =>
    match lookupJ kvs k with
    | some v => mapsAlong v ks
    | none => true
  | _, _ :: _ => false

/-- The first key consulted below the Components mapping by a guard with
remaining path rest and final key k. -/
def firstStep : List String → String → String
  | [], k => k
  | r :: _, _ => r

/-- The facts that make a second migration run a no-op: every ensure guard
holds, the deprecated GNSS key is gone, and the program version is
stamped. -/
def Migrated (e : Json) : Prop :=
  pathOk e [] "Components" ∧
  pathOk e ["Components"] "Battery" ∧
  pathOk e ["Components", "Battery"] "Specifications" ∧
  pathOk e ["Components", "Battery", "Specifications"] "Chemistry" ∧
  pathOk e ["Components", "Battery", "Specifications"] "Capacity mAh" ∧
  pathOk e ["Components"] "Frame" ∧
  pathOk e ["Components", "Frame"] "Specifications" ∧
  pathOk e ["Components", "Frame", "Specifications"] "TOW min Kg" ∧
  pathOk e ["Components", "Frame", "Specifications"] "TOW max Kg" ∧
  (∃ c, dictGet e "Components" = .ok c ∧ pyIn "GNSS receiver" c = .ok false) ∧
  resolve e ["Program version"] = some (.str programVersion) ∧
  pathOk e ["Components"] "Flight Controller" ∧
  pathOk e ["Components", "Flight Controller"] "Specifications"

/-- Distinguishes the outcome categories of the save error taxonomy,
independently of the interpolated exception text. -/
def WriteOutcome.kind : WriteOutcome → Nat
  | .success => 0
  | .fileNotFound => 1
  | .permissionError => 2
  | .isADirectoryError => 3
  | .osError _ => 4
  | .typeErrorExc _ => 5
  | .valueErrorExc _ => 6
  | .unexpected _ => 7

/-! ## Lemmas: wipe to defaults -/

theorem clearPairs_idem (kvs : List (String × Json))
    (IH : ∀ p ∈ kvs, clearVal (clearVal p.2) = clearVal p.2) :
    clearPairs (clearPairs kvs) = clearPairs kvs := by
  induction kvs with
  | nil => simp [clearPairs]
  | cons p rest ih =>
    obtain ⟨k, v⟩ := p
    have h1 := IH (k, v) (by simp)
    have h2 := ih (fun a ha => IH a (by simp [ha]))
    simp only [clearPairs]
    rw [h1, h2]

theorem clearVal_idem : ∀ j, clearVal (clearVal j) = clearVal j := by
  intro j
  induction j using Json.indOn with
  | hdict kvs IH => exact congrArg Json.dict (clearPairs_idem kvs IH)
  | _ => first | rfl | simp [clearVal]

theorem keyStructurePairs_clearPairs (kvs : List (String × Json))
    (IH : ∀ p ∈ kvs, keyStructure (clearVal p.2) = keyStructure p.2) :
    keyStructurePairs (clearPairs kvs) = keyStructurePairs kvs := by
  induction kvs with
  | nil => simp [clearPairs]
  | cons p rest ih =>
    obtain ⟨k, v⟩ := p
    have h1 := IH (k, v) (by simp)
    have h2 := ih (fun a ha => IH a (by simp [ha]))
    simp only [clearPairs, keyStructurePairs]
    rw [h1, h2]

theorem keyStructure_clearVal : ∀ j, keyStructure (clearVal j) = keyStructure j := by
  intro j
  induction j using Json.indOn with
  | hdict kvs IH =>
    simp only [clearVal, keyStructure]
    exact congrArg KeyTree.node (keyStructurePairs_clearPairs kvs IH)
  | _ => rfl

theorem defaultedBelowPairs_clearPairs (kvs : List (String × Json))
    (IH : ∀ p ∈ kvs, defaultedBelow (clearVal p.2) = true) :
    defaultedBelowPairs (clearPairs kvs) = true := by
  induction kvs with
  | nil => simp [clearPairs, defaultedBelowPairs]
  | cons p rest ih =>
    obtain ⟨k, v⟩ := p
    have h1 := IH (k, v) (by simp)
    have h2 := ih (fun a ha => IH a (by simp [ha]))
    cases v <;>
      simp_all [clearPairs, defaultedBelowPairs, clearVal, defaultedBelow, isDefaultLeaf]

theorem defaultedBelow_clearVal : ∀ j, defaultedBelow (clearVal j) = true := by
  intro j
  induction j using Json.indOn with
  | hdict kvs IH =>
    simp only [clearVal, defaultedBelow]
    exact defaultedBelowPairs_clearPairs kvs IH
  | _ => rfl

/-! ## Lemmas: string template distinctness -/

theorem listNeAppend {p q : List Char} (hp : ¬ p <+: q) (hq : ¬ q <+: p)
    (x y : List Char) : p ++ x ≠ q ++ y := by
  intro h
  rcases List.append_eq_append_iff.mp h with ⟨a, ha, _⟩ | ⟨c, hc, _⟩
  · exact hp ⟨a, ha.symm⟩
  · exact hq ⟨c, hc.symm⟩

theorem strTemplateNe (p q : String) (hp : ¬ p.data <+: q.data)
    (hq : ¬ q.data <+: p.data) (x y : String) : p ++ x ≠ q ++ y := by
  intro h
  have h2 : (p ++ x).data = (q ++ y).data := by rw [h]
  rw [String.data_append, String.data_append] at h2
  exact listNeAppend hp hq _ _ h2

theorem strAppendNeEmpty (p : String) (hp : p.data ≠ []) (x : String) :
    p ++ x ≠ "" := by
  intro h
  have h2 : (p ++ x).data = ("" : String).data := by rw [h]
  rw [String.data_append] at h2
  cases hd : p.data with
  | nil => exact hp hd
  | cons c l => rw [hd] at h2; simp at h2

/-! ## Claim C1 and C5 theorems -/

/-- Claim C1 (status code_bug): `_recursively_clear_dict` is documented to
reset booleans to False, and the claim requires the boolean case to be
decided before the generic numeric case; but in Python `bool` is a subclass
of `int`, so the `isinstance(value, (int, float))` branch fires first and
every boolean leaf is wiped to the integer 0, never to False — the
`isinstance(value, bool)` branch is dead code.  This theorem evaluates the
embedded code on a one-field document with a boolean leaf and on a document
with every other leaf type (whose defaults all match the claim). -/
theorem claimC1_bool_leaf_wiped_to_int_zero :
    recursivelyClearDict (Json.dict [("armed", .bool true)]) =
      .dict [("armed", .int 0)] ∧
    recursivelyClearDict (Json.dict [("armed", .bool true)]) ≠
      .dict [("armed", .bool false)] ∧
    recursivelyClearDict
      (Json.dict
        [("seq", .arr [.int 5]), ("count", .int 7), ("ratio", .float 2),
         ("name", .str "x"), ("missing", .null),
         ("sub", .dict [("flag", .bool true), ("note", .str "y")])]) =
      .dict
        [("seq", .arr []), ("count", .int 0), ("ratio", .float 0),
         ("name", .str ""), ("missing", .null),
         ("sub", .dict [("flag", .int 0), ("note", .str "")])] := by
  refine ⟨rfl, by decide, rfl⟩

/-- Claim C5 (status confirmed): wiping is idempotent; it preserves the key
structure (numbers and names of keys at every level of dict nesting, with
sequences wiped to empty sequences as leaves); and after a wipe every value
reachable through dict nesting is a type-appropriate default leaf or a
nested mapping. -/
theorem claimC5_wipe_idempotent_and_shape_preserving (d : Json) :
    recursivelyClearDict (recursivelyClearDict d) = recursivelyClearDict d ∧
    keyStructure (recursivelyClearDict d) = keyStructure d ∧
    defaultedBelow (recursivelyClearDict d) = true := by
  cases d with
  | dict kvs =>
    have h1 := clearVal_idem (Json.dict kvs)
    have h2 := keyStructure_clearVal (Json.dict kvs)
    have h3 := defaultedBelow_clearVal (Json.dict kvs)
    simp only [clearVal] at h1 h2 h3
    refine ⟨?_, h2, h3⟩
    simpa [recursivelyClearDict] using h1
  | null => exact ⟨rfl, rfl, rfl⟩
  | bool b => exact ⟨rfl, rfl, rfl⟩
  | int n => exact ⟨rfl, rfl, rfl⟩
  | float q => exact ⟨rfl, rfl, rfl⟩
  | str s => exact ⟨rfl, rfl, rfl⟩
  | arr xs => exact ⟨rfl, rfl, rfl⟩

/-! ## Claim C6 theorem -/

/-- Claim C6 (status confirmed): save_vehicle_components_json_data never
lets an exception past its boundary (the embedding is a total function of
the write outcome); success returns (False, ""); every failing outcome
returns (True, nonempty message); the missing-directory message names the
directory; and any two different failure causes produce distinct messages,
whatever the interpolated exception texts are. -/
theorem claimC6_save_error_contract (data : Json) (dir : String)
    (o o2 : WriteOutcome) :
    saveVehicleComponentsJsonData data dir .success = (false, "") ∧
    (o.kind ≠ 0 → (saveVehicleComponentsJsonData data dir o).1 = true ∧
      (saveVehicleComponentsJsonData data dir o).2 ≠ "") ∧
    dir.data <:+: (saveVehicleComponentsJsonData data dir .fileNotFound).2.data ∧
    (o.kind ≠ o2.kind → o.kind ≠ 0 → o2.kind ≠ 0 →
      (saveVehicleComponentsJsonData data dir o).2 ≠
        (saveVehicleComponentsJsonData data dir o2).2) := by
  refine ⟨rfl, ?_, ?_, ?_⟩
  · intro hk
    cases o <;> simp [WriteOutcome.kind] at hk ⊢ <;>
      · constructor
        · rfl
        · simp only [saveVehicleComponentsJsonData, osPathJoin, String.append_assoc]
          first
          | exact strAppendNeEmpty _ (by decide) _
  · refine ⟨"Directory '".data, "' not found".data, ?_⟩
    simp [saveVehicleComponentsJsonData, String.data_append]
  · intro hne h0 h02
    cases o <;> cases o2 <;>
      simp [WriteOutcome.kind] at hne h0 h02 ⊢ <;>
      · simp only [saveVehicleComponentsJsonData, osPathJoin, String.append_assoc]
        first
        | exact strTemplateNe _ _ (by decide) (by decide) _ _

/-! ## Claims C2 and C9: firmware version and type accessors -/

theorem lookupJ_ne_nil {kvs : List (String × Json)} {k : String} {v : Json}
    (h : lookupJ kvs k = some v) : kvs ≠ [] := by
  cases kvs with
  | nil => simp [lookupJ] at h
  | cons p rest => simp

/-- Claim C2 counterexample: on Version = "4.3.1-dev" the accessor returns
"", not "4.3.1" — the "-dev" suffix is attached to the space-delimited
token, so the anchored pattern rejects the whole token; nothing discards
trailing text that is not separated by a space. -/
theorem claimC2_counterexample :
    getFcFwVersionFromVehicleComponentsJson
      (.dict [("Components", .dict [("Flight Controller", .dict [("Firmware",
        .dict [("Version", .str "4.3.1-dev")])])])]) = .ok "" ∧
    (Except.ok "" : Except PyErr String) ≠ .ok "4.3.1" := by
  constructor
  · rfl
  · decide

/-- Claim C2 (status corrected): for every loaded document in which
Components."Flight Controller".Firmware.Version resolves through mappings
to a string s, the accessor strips leading whitespace from s, takes the
token before the first space, and returns it exactly when the whole token
matches the anchored digits.digits.digits pattern, returning "" otherwise;
trailing text attached to the token without a space separator (as in
"4.3.1-dev") is not discarded, so such strings yield "". -/
theorem claimC2_firmware_version_extraction (vc : Json) (s : String)
    (h : resolve vc ["Components", "Flight Controller", "Firmware", "Version"] =
      some (.str s)) :
    getFcFwVersionFromVehicleComponentsJson vc = .ok (firmwareVersionSpec s) := by
  cases vc with
  | dict kvs =>
    simp only [resolve] at h
    cases hC : lookupJ kvs "Components" with
    | none => rw [hC] at h; simp at h
    | some comps =>
      rw [hC] at h
      cases comps with
      | dict ckvs =>
        simp only [resolve] at h
        cases hF : lookupJ ckvs "Flight Controller" with
        | none => rw [hF] at h; simp at h
        | some fc =>
          rw [hF] at h
          cases fc with
          | dict fkvs =>
            simp only [resolve] at h
            cases hW : lookupJ fkvs "Firmware" with
            | none => rw [hW] at h; simp at h
            | some fw =>
              rw [hW] at h
              cases fw with
              | dict wkvs =>
                simp only [resolve] at h
                cases hV : lookupJ wkvs "Version" with
                | none => rw [hV] at h; simp at h
                | some ver =>
                  rw [hV] at h
                  simp only [resolve, Option.some.injEq] at h
                  subst h
                  have ht : pyTruthy (Json.dict kvs) = true := by
                    simp [pyTruthy]
                    exact lookupJ_ne_nil hC
                  have htc : pyTruthy (Json.dict ckvs) = true := by
                    simp [pyTruthy]
                    exact lookupJ_ne_nil hF
                  simp only [getFcFwVersionFromVehicleComponentsJson, fwComponentsOf,
                    ht, htc, if_true, pyIn, hasKey, hC, hF, hW, hV, Option.isSome,
                    dictGet, pyGetD, bind, Except.bind, pure, Except.pure]
                  by_cases hs : s = ""
                  · subst hs
                    simp [pyTruthy, firmwareVersionSpec, pyLStrip, firstSpaceToken,
                      reMatchTriple, isDigitTriple, splitOnChar]
                  · have hts : pyTruthy (Json.str s) = true := by simp [pyTruthy, hs]
                    simp only [hts, if_true, firmwareVersionSpec]
                    exact (apply_ite Except.ok _ _ _).symm
              | null => simp [resolve] at h
              | bool b => simp [resolve] at h
              | int n => simp [resolve] at h
              | float q => simp [resolve] at h
              | str t => simp [resolve] at h
              | arr xs => simp [resolve] at h
          | null => simp [resolve] at h
          | bool b => simp [resolve] at h
          | int n => simp [resolve] at h
          | float q => simp [resolve] at h
          | str t => simp [resolve] at h
          | arr xs => simp [resolve] at h
      | null => simp [resolve] at h
      | bool b => simp [resolve] at h
      | int n => simp [resolve] at h
      | float q => simp [resolve] at h
      | str t => simp [resolve] at h
      | arr xs => simp [resolve] at h
  | null => simp [resolve] at h
  | bool b => simp [resolve] at h
  | int n => simp [resolve] at h
  | float q => simp [resolve] at h
  | str t => simp [resolve] at h
  | arr xs => simp [resolve] at h

/-- Claim C2 witness: the amended statement applied to concrete documents;
on "4.3.1-dev" the extraction yields "", on "4.3.1 (dev)" the space-token
"4.3.1" is kept, on "bogus" it yields "". -/
theorem claimC2_firmware_version_extraction_witness :
    getFcFwVersionFromVehicleComponentsJson
        (.dict [("Components", .dict [("Flight Controller", .dict [("Firmware",
          .dict [("Version", .str "4.3.1 (dev)")])])])]) =
      .ok (firmwareVersionSpec "4.3.1 (dev)") ∧
    firmwareVersionSpec "4.3.1 (dev)" = "4.3.1" ∧
    firmwareVersionSpec "4.3.1-dev" = "" ∧
    firmwareVersionSpec "bogus" = "" :=
  ⟨claimC2_firmware_version_extraction _ "4.3.1 (dev)" rfl, rfl, rfl, rfl⟩

/-- Claim C9 counterexample: a loaded document in which "Flight Controller"
is not a mapping makes the accessor raise AttributeError (Python calls
.get on a non-dict); the claim as stated promises "" for every document
where Type is absent or unsupported. -/
theorem claimC9_counterexample :
    getFcFwTypeFromVehicleComponentsJson
      (.dict [("Components", .dict [("Flight Controller", .int 5)])]) =
        .error .attributeError ∧
    (Except.error PyErr.attributeError : Except PyErr String) ≠ .ok "" := by
  constructor
  · rfl
  · decide

/-- Claim C9 (status corrected): for every loaded document in which
Components."Flight Controller".Firmware.Type resolves through mappings to a
string s, the accessor returns s exactly when s is a member of the fixed
supported-firmware tuple, and "" otherwise; when the chain crosses a
non-mapping the accessor instead raises AttributeError. -/
theorem claimC9_firmware_type_membership (vc : Json) (s : String)
    (h : resolve vc ["Components", "Flight Controller", "Firmware", "Type"] =
      some (.str s)) :
    getFcFwTypeFromVehicleComponentsJson vc =
      .ok (if supported_vehicles.contains s then s else "") := by
  cases vc with
  | dict kvs =>
    simp only [resolve] at h
    cases hC : lookupJ kvs "Components" with
    | none => rw [hC] at h; simp at h
    | some comps =>
      rw [hC] at h
      cases comps with
      | dict ckvs =>
        simp only [resolve] at h
        cases hF : lookupJ ckvs "Flight Controller" with
        | none => rw [hF] at h; simp at h
        | some fc =>
          rw [hF] at h
          cases fc with
          | dict fkvs =>
            simp only [resolve] at h
            cases hW : lookupJ fkvs "Firmware" with
            | none => rw [hW] at h; simp at h
            | some fw =>
              rw [hW] at h
              cases fw with
              | dict wkvs =>
                simp only [resolve] at h
                cases hV : lookupJ wkvs "Type" with
                | none => rw [hV] at h; simp at h
                | some ver =>
                  rw [hV] at h
                  simp only [resolve, Option.some.injEq] at h
                  subst h
                  have ht : pyTruthy (Json.dict kvs) = true := by
                    simp [pyTruthy]
                    exact lookupJ_ne_nil hC
                  have htc : pyTruthy (Json.dict ckvs) = true := by
                    simp [pyTruthy]
                    exact lookupJ_ne_nil hF
                  simp only [getFcFwTypeFromVehicleComponentsJson, fwComponentsOf,
                    ht, htc, if_true, pyIn, hasKey, hC, hF, hW, hV, Option.isSome,
                    dictGet, pyGetD, bind, Except.bind, pure, Except.pure]
                  exact (apply_ite Except.ok _ _ _).symm
              | null => simp [resolve] at h
              | bool b => simp [resolve] at h
              | int n => simp [resolve] at h
              | float q => simp [resolve] at h
              | str t => simp [resolve] at h
              | arr xs => simp [resolve] at h
          | null => simp [resolve] at h
          | bool b => simp [resolve] at h
          | int n => simp [resolve] at h
          | float q => simp [resolve] at h
          | str t => simp [resolve] at h
          | arr xs => simp [resolve] at h
      | null => simp [resolve] at h
      | bool b => simp [resolve] at h
      | int n => simp [resolve] at h
      | float q => simp [resolve] at h
      | str t => simp [resolve] at h
      | arr xs => simp [resolve] at h
  | null => simp [resolve] at h
  | bool b => simp [resolve] at h
  | int n => simp [resolve] at h
  | float q => simp [resolve] at h
  | str t => simp [resolve] at h
  | arr xs => simp [resolve] at h

/-- Claim C9 witness: the amended statement at concrete documents; an
ArduPlane type is returned, an unsupported type yields "". -/
theorem claimC9_firmware_type_membership_witness :
    getFcFwTypeFromVehicleComponentsJson
        (.dict [("Components", .dict [("Flight Controller", .dict [("Firmware",
          .dict [("Type", .str "ArduPlane")])])])]) =
      .ok (if supported_vehicles.contains "ArduPlane" then "ArduPlane" else "") ∧
    (if supported_vehicles.contains "ArduPlane" then "ArduPlane" else "") = "ArduPlane" ∧
    getFcFwTypeFromVehicleComponentsJson
        (.dict [("Components", .dict [("Flight Controller", .dict [("Firmware",
          .dict [("Type", .str "UnknownVehicle")])])])]) =
      .ok (if supported_vehicles.contains "UnknownVehicle" then "UnknownVehicle" else "") ∧
    (if supported_vehicles.contains "UnknownVehicle" then "UnknownVehicle" else "") = "" :=
  ⟨claimC9_firmware_type_membership _ "ArduPlane" rfl, rfl,
   claimC9_firmware_type_membership _ "UnknownVehicle" rfl, rfl⟩

/-! ## Claim C6 witness -/

/-- Claim C6 witness: the error contract at a concrete directory and two
concrete failure outcomes. -/
theorem claimC6_save_error_contract_witness :
    (saveVehicleComponentsJsonData .null "vdir" .fileNotFound).2 ≠
      (saveVehicleComponentsJsonData .null "vdir" .permissionError).2 ∧
    (saveVehicleComponentsJsonData .null "vdir" .fileNotFound).1 = true :=
  ⟨(claimC6_save_error_contract .null "vdir" .fileNotFound .permissionError).2.2.2
      (by decide) (by decide) (by decide),
   ((claimC6_save_error_contract .null "vdir" .fileNotFound .permissionError).2.1
      (by decide)).1⟩

/-! ## Claim C8: validation contract -/

theorem firstMissingRequired_isSome {reqs : List Json}
    {kvs : List (String × Json)} {f : String}
    (hf : (Json.str f) ∈ reqs) (hmiss : hasKey kvs f = false) :
    ∃ m, firstMissingRequired reqs kvs = some m := by
  induction reqs with
  | nil => simp at hf
  | cons r rest ih =>
    rcases List.mem_cons.mp hf with hr | hf2
    · subst hr
      simp [firstMissingRequired, hmiss]
    · cases r with
      | str t =>
        by_cases hk : hasKey kvs t
        · simp [firstMissingRequired, hk]
          exact ih hf2
        · simp [firstMissingRequired, hk]
      | null => exact (by simp [firstMissingRequired]; exact ih hf2)
      | bool b => exact (by simp [firstMissingRequired]; exact ih hf2)
      | int n => exact (by simp [firstMissingRequired]; exact ih hf2)
      | float q => exact (by simp [firstMissingRequired]; exact ih hf2)
      | arr xs => exact (by simp [firstMissingRequired]; exact ih hf2)
      | dict d => exact (by simp [firstMissingRequired]; exact ih hf2)

theorem jsValidate_required_missing {sch kvs : List (String × Json)}
    {reqs : List Json} {f : String}
    (hreq : lookupJ sch "required" = some (.arr reqs))
    (hf : (Json.str f) ∈ reqs) (hmiss : hasKey kvs f = false) :
    ∃ m, jsValidate (.dict sch) (.dict kvs) = some m := by
  obtain ⟨m, hm⟩ := firstMissingRequired_isSome hf hmiss
  have hr : requiredErrOf sch (Json.dict kvs) = some m := by
    simp [requiredErrOf, hreq, hm]
  rw [jsValidate]
  cases htype : typeErrOf sch (Json.dict kvs) with
  | some e => exact ⟨e, rfl⟩
  | none =>
    rw [hr]
    exact ⟨m, rfl⟩

/-- Claim C8 (status confirmed): validate returns (False, nonempty message)
when the schema is empty or unavailable; (False, nonempty message) when the
document is a mapping missing a schema-required field; and (True, "")
exactly when schema validation succeeds.  The embedding is a total
function, so no exception escapes. -/
theorem claimC8_validate_contract (schema data : Json)
    (sch kvs : List (String × Json)) (reqs : List Json) (f : String) :
    (pyTruthy schema = false →
      validateVehicleComponents schema data =
        (false, "Could not load validation schema") ∧
      ("Could not load validation schema" : String) ≠ "") ∧
    (lookupJ sch "required" = some (.arr reqs) → (Json.str f) ∈ reqs →
      hasKey kvs f = false →
      (validateVehicleComponents (.dict sch) (.dict kvs)).1 = false ∧
      (validateVehicleComponents (.dict sch) (.dict kvs)).2 ≠ "") ∧
    (validateVehicleComponents schema data = (true, "") ↔
      pyTruthy schema = true ∧ jsValidate schema data = none) := by
  refine ⟨?_, ?_, ?_⟩
  · intro hfalse
    constructor
    · simp [validateVehicleComponents, hfalse]
    · decide
  · intro hreq hf hmiss
    obtain ⟨m, hm⟩ := jsValidate_required_missing hreq hf hmiss
    have hreqne : lookupJ sch "required" ≠ none := by simp [hreq]
    have hschne : sch ≠ [] := by
      intro hempty
      subst hempty
      simp [lookupJ] at hreq
    have htr : pyTruthy (Json.dict sch) = true := by simp [pyTruthy, hschne]
    constructor
    · simp [validateVehicleComponents, htr, hm]
    · have hv2 : validateVehicleComponents (.dict sch) (.dict kvs) =
          (false, "Validation error: " ++ m) := by
        simp [validateVehicleComponents, htr, hm]
      rw [hv2]
      exact strAppendNeEmpty "Validation error: " (by decide) m
  · constructor
    · intro hok
      by_cases ht : pyTruthy schema
      · refine ⟨ht, ?_⟩
        by_contra hne
        cases hv : jsValidate schema data with
        | none => exact hne hv
        | some m =>
          simp [validateVehicleComponents, ht, hv] at hok
      · simp [validateVehicleComponents, ht] at hok
    · rintro ⟨ht, hv⟩
      simp [validateVehicleComponents, ht, hv]

/-- Claim C8 witness: the contract at a concrete schema requiring
"Components" and a document without that field, plus the empty schema. -/
theorem claimC8_validate_contract_witness :
    (validateVehicleComponents (.dict []) (.dict []) =
      (false, "Could not load validation schema")) ∧
    (validateVehicleComponents
      (.dict [("type", .str "object"), ("required", .arr [.str "Components"])])
      (.dict [("x", .int 1)])).1 = false ∧
    (validateVehicleComponents
      (.dict [("type", .str "object"), ("required", .arr [.str "Components"])])
      (.dict [("x", .int 1)])).2 ≠ "" :=
  ⟨((claimC8_validate_contract (.dict []) (.dict []) [] [] [] "f").1 rfl).1,
   ((claimC8_validate_contract (.dict [("type", .str "object"),
        ("required", .arr [.str "Components"])]) (.dict [("x", .int 1)])
      [("type", .str "object"), ("required", .arr [.str "Components"])]
      [("x", .int 1)] [.str "Components"] "Components").2.1 rfl (by decide)
      (by decide)).1,
   ((claimC8_validate_contract (.dict [("type", .str "object"),
        ("required", .arr [.str "Components"])]) (.dict [("x", .int 1)])
      [("type", .str "object"), ("required", .arr [.str "Components"])]
      [("x", .int 1)] [.str "Components"] "Components").2.1 rfl (by decide)
      (by decide)).2⟩

/-! ## Claim C10: the write-back coercion -/

/-- Claim C10 (status confirmed): when form-entered values are written back
before saving, an entry whose path ends in "Version" stores the raw entered
string, and every other entry stores the ordered fallback int-parse, else
float-parse, else stripped string; the write-back loop stores exactly that
coerced value at "Components" ++ path. -/
theorem claimC10_writeback_coercion (k raw : String) (d : Json) (p : List String) :
    coerceComponentValue k raw = coerceComponentValueSpec k raw ∧
    saveComponentJson d [(p ++ [k], raw)] =
      assignAt d ("Components" :: p) k (coerceComponentValueSpec k raw) := by
  have hco : coerceComponentValue k raw = coerceComponentValueSpec k raw := by
    by_cases hk : k = "Version" <;>
      simp [coerceComponentValue, coerceComponentValueSpec, hk]
  refine ⟨hco, ?_⟩
  simp only [saveComponentJson, List.foldlM, List.getLast?_concat, List.dropLast_concat,
    hco]
  cases hA : assignAt d ("Components" :: p) k (coerceComponentValueSpec k raw) with
  | ok r => simp [hA, bind, Except.bind, List.foldlM, pure, Except.pure]
  | error e => simp [hA, bind, Except.bind]

/-! ## Lemmas: migration building blocks -/

theorem dictGet_ok {d : Json} {k : String} {c : Json} (h : dictGet d k = .ok c) :
    ∃ kvs, d = .dict kvs ∧ lookupJ kvs k = some c := by
  cases d with
  | dict kvs =>
    refine ⟨kvs, rfl, ?_⟩
    cases hl : lookupJ kvs k with
    | none => simp [dictGet, hl] at h
    | some v => simp [dictGet, hl] at h; rw [h]
  | null => simp [dictGet] at h
  | bool b => simp [dictGet] at h
  | int n => simp [dictGet] at h
  | float q => simp [dictGet] at h
  | str s => simp [dictGet] at h
  | arr xs => simp [dictGet] at h

theorem dictSet_ok {d : Json} {k : String} {v e : Json} (h : dictSet d k v = .ok e) :
    ∃ kvs, d = .dict kvs ∧ e = .dict (setEntry kvs k v) := by
  cases d with
  | dict kvs =>
    refine ⟨kvs, rfl, ?_⟩
    simp [dictSet] at h
    rw [← h]
  | null => simp [dictSet] at h
  | bool b => simp [dictSet] at h
  | int n => simp [dictSet] at h
  | float q => simp [dictSet] at h
  | str s => simp [dictSet] at h
  | arr xs => simp [dictSet] at h

theorem pathOk_of_resolve {p : List String} {d : Json} {k : String} {u : Json}
    (h : resolve d (p ++ [k]) = some u) : pathOk d p k := by
  induction p generalizing d with
  | nil =>
    cases d with
    | dict kvs =>
      simp only [List.nil_append, resolve] at h
      cases hl : lookupJ kvs k with
      | none => rw [hl] at h; simp at h
      | some v => simp [pathOk, pyIn, hasKey, hl]
    | null => simp [resolve] at h
    | bool b => simp [resolve] at h
    | int n => simp [resolve] at h
    | float q => simp [resolve] at h
    | str s => simp [resolve] at h
    | arr xs => simp [resolve] at h
  | cons q qs ih =>
    cases d with
    | dict kvs =>
      simp only [List.cons_append, resolve] at h
      cases hl : lookupJ kvs q with
      | none => rw [hl] at h; simp at h
      | some c =>
        rw [hl] at h
        exact ⟨c, by simp [dictGet, hl], ih h⟩
    | null => simp [resolve] at h
    | bool b => simp [resolve] at h
    | int n => simp [resolve] at h
    | float q => simp [resolve] at h
    | str s => simp [resolve] at h
    | arr xs => simp [resolve] at h

theorem ensureRec_skip {path : List String} {d : Json} {k : String} (v : Json)
    (h : pathOk d path k) : ensureRec d path k v = .ok d := by
  induction path generalizing d with
  | nil =>
    simp only [pathOk] at h
    simp [ensureRec, h, bind, Except.bind, pure, Except.pure]
  | cons p ps ih =>
    obtain ⟨c, hg, hp⟩ := h
    obtain ⟨kvs, rfl, hlk⟩ := dictGet_ok hg
    simp only [ensureRec, bind, Except.bind, hg, ih hp, dictSet]
    rw [setEntry_of_lookupJ_eq kvs p c hlk]

theorem ensureRec_pathOk {path : List String} {d : Json} {k : String} {v e : Json}
    (h : ensureRec d path k v = .ok e) : pathOk e path k := by
  induction path generalizing d e with
  | nil =>
    simp only [ensureRec, bind, Except.bind] at h
    cases hb : pyIn k d with
    | error er => rw [hb] at h; simp at h
    | ok b =>
      rw [hb] at h
      cases b with
      | true =>
        simp only [if_true, pure, Except.pure, Except.ok.injEq] at h
        subst h
        exact hb
      | false =>
        simp only [Bool.false_eq_true, if_false] at h
        obtain ⟨kvs, rfl, rfl⟩ := dictSet_ok h
        simp [pathOk, pyIn, hasKey, lookupJ_setEntry_self]
  | cons p ps ih =>
    simp only [ensureRec, bind, Except.bind] at h
    cases hg : dictGet d p with
    | error er => rw [hg] at h; simp at h
    | ok child =>
      rw [hg] at h
      dsimp only at h
      cases hrec : ensureRec child ps k v with
      | error er => rw [hrec] at h; simp at h
      | ok child2 =>
        rw [hrec] at h
        dsimp only at h
        obtain ⟨kvs, rfl, rfl⟩ := dictSet_ok h
        exact ⟨child2, by simp [dictGet, lookupJ_setEntry_self], ih hrec⟩

theorem dictGet_dict_ok {kvs : List (String × Json)} {k : String} {c : Json}
    (h : dictGet (.dict kvs) k = .ok c) : lookupJ kvs k = some c := by
  cases hl : lookupJ kvs k with
  | none => simp [dictGet, hl] at h
  | some v =>
    simp [dictGet, hl] at h
    rw [h]

theorem ensureRec_preserves_pathOk {p2 : List String} {d e : Json} {k2 : String}
    {v : Json} (h : ensureRec d p2 k2 v = .ok e) {p1 : List String} {k1 : String}
    (hp : pathOk d p1 k1) : pathOk e p1 k1 := by
  induction p2 generalizing d e p1 with
  | nil =>
    simp only [ensureRec, bind, Except.bind] at h
    cases hb : pyIn k2 d with
    | error er => rw [hb] at h; simp at h
    | ok b =>
      rw [hb] at h
      cases b with
      | true =>
        simp only [if_true, pure, Except.pure, Except.ok.injEq] at h
        subst h
        exact hp
      | false =>
        simp only [Bool.false_eq_true, if_false] at h
        obtain ⟨kvs, rfl, rfl⟩ := dictSet_ok h
        cases p1 with
        | nil =>
          simp only [pathOk, pyIn, Except.ok.injEq] at hp ⊢
          simp [hasKey_setEntry, hp]
        | cons q qs =>
          obtain ⟨c, hg, hrest⟩ := hp
          have hlk := dictGet_dict_ok hg
          by_cases hqk : q = k2
          · subst hqk
            simp [pyIn, hasKey, hlk] at hb
          · exact ⟨c, by simp [dictGet, lookupJ_setEntry_other kvs k2 q v hqk, hlk],
              hrest⟩
  | cons p ps ih =>
    simp only [ensureRec, bind, Except.bind] at h
    cases hg : dictGet d p with
    | error er => rw [hg] at h; simp at h
    | ok child =>
      rw [hg] at h
      dsimp only at h
      cases hrec : ensureRec child ps k2 v with
      | error er => rw [hrec] at h; simp at h
      | ok child2 =>
        rw [hrec] at h
        dsimp only at h
        obtain ⟨kvs, rfl, rfl⟩ := dictSet_ok h
        have hlk := dictGet_dict_ok hg
        cases p1 with
        | nil =>
          simp only [pathOk, pyIn, Except.ok.injEq] at hp ⊢
          simp [hasKey_setEntry, hp]
        | cons q qs =>
          obtain ⟨c, hgq, hrest⟩ := hp
          have hlk3 := dictGet_dict_ok hgq
          by_cases hqp : q = p
          · subst hqp
            have hc : c = child := by
              rw [hlk3] at hlk
              exact Option.some.inj hlk
            subst hc
            exact ⟨child2, by simp [dictGet, lookupJ_setEntry_self], ih hrec hrest⟩
          · exact ⟨c, by simp [dictGet, lookupJ_setEntry_other kvs p q child2 hqp, hlk3],
              hrest⟩

theorem resolve_dict_cons {kvs : List (String × Json)} {q : String} {qs : List String} :
    resolve (.dict kvs) (q :: qs) =
      (match lookupJ kvs q with
       | some v => resolve v qs
       | none => none) := rfl

theorem ensureRec_preserves_resolve {p2 : List String} {d e : Json} {k2 : String}
    {v : Json} (h : ensureRec d p2 k2 v = .ok e) {q : List String} {w : Json}
    (hq : resolve d q = some w) (hnp : ¬ q <+: (p2 ++ [k2])) : resolve e q = some w := by
  induction p2 generalizing d e q with
  | nil =>
    simp only [ensureRec, bind, Except.bind] at h
    cases hb : pyIn k2 d with
    | error er => rw [hb] at h; simp at h
    | ok b =>
      rw [hb] at h
      cases b with
      | true =>
        simp only [if_true, pure, Except.pure, Except.ok.injEq] at h
        subst h
        exact hq
      | false =>
        simp only [Bool.false_eq_true, if_false] at h
        obtain ⟨kvs, rfl, rfl⟩ := dictSet_ok h
        cases q with
        | nil => exact absurd (List.nil_prefix) hnp
        | cons a qs =>
          rw [resolve_dict_cons] at hq
          cases hl : lookupJ kvs a with
          | none => rw [hl] at hq; simp at hq
          | some c =>
            rw [hl] at hq
            by_cases hak : a = k2
            · subst hak
              simp [pyIn, hasKey, hl] at hb
            · rw [resolve_dict_cons, lookupJ_setEntry_other kvs k2 a v hak, hl]
              exact hq
  | cons p ps ih =>
    simp only [ensureRec, bind, Except.bind] at h
    cases hg : dictGet d p with
    | error er => rw [hg] at h; simp at h
    | ok child =>
      rw [hg] at h
      dsimp only at h
      cases hrec : ensureRec child ps k2 v with
      | error er => rw [hrec] at h; simp at h
      | ok child2 =>
        rw [hrec] at h
        dsimp only at h
        obtain ⟨kvs, rfl, rfl⟩ := dictSet_ok h
        have hlk := dictGet_dict_ok hg
        cases q with
        | nil => exact absurd (List.nil_prefix) hnp
        | cons a qs =>
          rw [resolve_dict_cons] at hq
          cases hl : lookupJ kvs a with
          | none => rw [hl] at hq; simp at hq
          | some c =>
            rw [hl] at hq
            by_cases hap : a = p
            · subst hap
              have hc : c = child := by
                rw [hl] at hlk
                exact Option.some.inj hlk
              subst hc
              rw [resolve_dict_cons, lookupJ_setEntry_self]
              refine ih hrec hq ?_
              intro hpre
              have : a :: qs <+: a :: (ps ++ [k2]) :=
                List.cons_prefix_cons.mpr ⟨rfl, hpre⟩
              exact hnp (by simpa using this)
            · rw [resolve_dict_cons, lookupJ_setEntry_other kvs p a child2 hap, hl]
              exact hq

theorem ensureRec_of_present {p2 : List String} {d e : Json} {k2 : String} {v u : Json}
    (h : ensureRec d p2 k2 v = .ok e) (hpres : resolve d (p2 ++ [k2]) = some u) :
    e = d := by
  have hskip := ensureRec_skip v (pathOk_of_resolve hpres)
  rw [hskip] at h
  exact (Except.ok.inj h).symm

theorem ensureRec_inserts {p2 : List String} {d e : Json} {k2 : String} {v : Json}
    (h : ensureRec d p2 k2 v = .ok e) (hm : mapsAlong d (p2 ++ [k2]) = true)
    (habs : resolve d (p2 ++ [k2]) = none) : resolve e (p2 ++ [k2]) = some v := by
  induction p2 generalizing d e with
  | nil =>
    simp only [ensureRec, bind, Except.bind] at h
    cases hb : pyIn k2 d with
    | error er => rw [hb] at h; simp at h
    | ok b =>
      rw [hb] at h
      cases d with
      | dict kvs =>
        simp only [List.nil_append] at hm habs ⊢
        rw [resolve_dict_cons] at habs
        cases hl : lookupJ kvs k2 with
        | some c =>
          rw [hl] at habs
          simp [resolve] at habs
        | none =>
          cases b with
          | true => simp [pyIn, hasKey, hl] at hb
          | false =>
            simp only [Bool.false_eq_true, if_false] at h
            obtain ⟨kvs2, heq, rfl⟩ := dictSet_ok h
            have : kvs2 = kvs := by
              simp at heq
              exact heq.symm
            subst this
            rw [resolve_dict_cons, lookupJ_setEntry_self]
            simp [resolve]
      | null => simp [mapsAlong] at hm
      | bool bb => simp [mapsAlong] at hm
      | int n => simp [mapsAlong] at hm
      | float qq => simp [mapsAlong] at hm
      | str s => simp [mapsAlong] at hm
      | arr xs => simp [mapsAlong] at hm
  | cons p ps ih =>
    simp only [ensureRec, bind, Except.bind] at h
    cases hg : dictGet d p with
    | error er => rw [hg] at h; simp at h
    | ok child =>
      rw [hg] at h
      dsimp only at h
      cases hrec : ensureRec child ps k2 v with
      | error er => rw [hrec] at h; simp at h
      | ok child2 =>
        rw [hrec] at h
        dsimp only at h
        obtain ⟨kvs, rfl, rfl⟩ := dictSet_ok h
        have hlk := dictGet_dict_ok hg
        simp only [List.cons_append] at hm habs ⊢
        rw [resolve_dict_cons] at habs
        rw [hlk] at habs
        have hm2 : mapsAlong child (ps ++ [k2]) = true := by
          simp only [mapsAlong, hlk] at hm
          exact hm
        rw [resolve_dict_cons, lookupJ_setEntry_self]
        exact ih hrec hm2 habs

theorem dictPop_ok {x : Json} {k : String} {pr : Json × Json}
    (h : dictPop x k = .ok pr) :
    ∃ kvs, x = .dict kvs ∧ lookupJ kvs k = some pr.1 ∧
      pr.2 = .dict (removeEntry kvs k) := by
  cases x with
  | dict kvs =>
    cases hl : lookupJ kvs k with
    | none => simp [dictPop, hl] at h
    | some v =>
      simp [dictPop, hl] at h
      refine ⟨kvs, rfl, ?_, ?_⟩
      · rw [← h]
        exact hl
      · rw [← h]
  | null => simp [dictPop] at h
  | bool b => simp [dictPop] at h
  | int n => simp [dictPop] at h
  | float q => simp [dictPop] at h
  | str s => simp [dictPop] at h
  | arr xs => simp [dictPop] at h

theorem renameGnss_cases {d e : Json} (h : renameGnss d = .ok e) :
    (e = d ∧ ∃ c, dictGet d "Components" = .ok c ∧
      pyIn "GNSS receiver" c = .ok false) ∨
    (∃ kvs ckvs v0,
      d = .dict kvs ∧ lookupJ kvs "Components" = some (.dict ckvs) ∧
      lookupJ ckvs "GNSS receiver" = some v0 ∧
      e = .dict (setEntry kvs "Components"
        (.dict (setEntry (removeEntry ckvs "GNSS receiver") "GNSS Receiver" v0)))) := by
  simp only [renameGnss, bind, Except.bind] at h
  cases hg : dictGet d "Components" with
  | error er => rw [hg] at h; simp at h
  | ok comps =>
    rw [hg] at h
    dsimp only at h
    cases hb : pyIn "GNSS receiver" comps with
    | error er => rw [hb] at h; simp at h
    | ok b =>
      rw [hb] at h
      cases b with
      | false =>
        simp only [Bool.false_eq_true, if_false, pure, Except.pure,
          Except.ok.injEq] at h
        subst h
        exact Or.inl ⟨rfl, comps, rfl, hb⟩
      | true =>
        simp only [if_true] at h
        cases hp : dictPop comps "GNSS receiver" with
        | error er => rw [hp] at h; simp at h
        | ok pr =>
          rw [hp] at h
          dsimp only at h
          obtain ⟨ckvs, rfl, hlk0, hrest⟩ := dictPop_ok hp
          rw [hrest] at h
          simp only [dictSet] at h
          obtain ⟨kvs, rfl, rfl⟩ := dictSet_ok h
          exact Or.inr ⟨kvs, ckvs, pr.1, rfl, dictGet_dict_ok hg, hlk0, rfl⟩

theorem ensureFcSpecifications_cases {d e : Json}
    (h : ensureFcSpecifications d = .ok e) :
    (e = d ∧ ∃ c fc, dictGet d "Components" = .ok c ∧
      dictGet c "Flight Controller" = .ok fc ∧
      pyIn "Specifications" fc = .ok true) ∨
    (∃ kvs ckvs fkvs product firmware notes,
      d = .dict kvs ∧ lookupJ kvs "Components" = some (.dict ckvs) ∧
      lookupJ ckvs "Flight Controller" = some (.dict fkvs) ∧
      hasKey fkvs "Specifications" = false ∧
      lookupJ fkvs "Product" = some product ∧
      lookupJ fkvs "Firmware" = some firmware ∧
      lookupJ fkvs "Notes" = some notes ∧
      e = .dict (setEntry kvs "Components" (.dict (setEntry ckvs "Flight Controller"
        (.dict [("Product", product), ("Firmware", firmware),
                ("Specifications", .dict [("MCU Series", .str "Unknown")]),
                ("Notes", notes)]))))) := by
  simp only [ensureFcSpecifications, bind, Except.bind] at h
  cases hg : dictGet d "Components" with
  | error er => rw [hg] at h; simp at h
  | ok comps =>
    rw [hg] at h
    dsimp only at h
    cases hfc : dictGet comps "Flight Controller" with
    | error er => rw [hfc] at h; simp at h
    | ok fc =>
      rw [hfc] at h
      dsimp only at h
      cases hb : pyIn "Specifications" fc with
      | error er => rw [hb] at h; simp at h
      | ok b =>
        rw [hb] at h
        cases b with
        | true =>
          simp only [if_true, pure, Except.pure, Except.ok.injEq] at h
          subst h
          exact Or.inl ⟨rfl, comps, fc, rfl, hfc, hb⟩
        | false =>
          simp only [Bool.false_eq_true, if_false] at h
          cases hpr : dictGet fc "Product" with
          | error er => rw [hpr] at h; simp at h
          | ok product =>
            rw [hpr] at h
            dsimp only at h
            cases hfw : dictGet fc "Firmware" with
            | error er => rw [hfw] at h; simp at h
            | ok firmware =>
              rw [hfw] at h
              dsimp only at h
              cases hno : dictGet fc "Notes" with
              | error er => rw [hno] at h; simp at h
              | ok notes =>
                rw [hno] at h
                dsimp only at h
                obtain ⟨fkvs, rfl, hlkp⟩ := dictGet_ok hpr
                cases hcs : dictSet comps "Flight Controller"
                    (Json.dict [("Product", product), ("Firmware", firmware),
                      ("Specifications", .dict [("MCU Series", .str "Unknown")]),
                      ("Notes", notes)]) with
                | error er => rw [hcs] at h; simp at h
                | ok comps2 =>
                  rw [hcs] at h
                  dsimp only at h
                  obtain ⟨ckvs, rfl, rfl⟩ := dictSet_ok hcs
                  obtain ⟨kvs, rfl, rfl⟩ := dictSet_ok h
                  have hbf : hasKey fkvs "Specifications" = false := by
                    simp only [pyIn, Except.ok.injEq] at hb
                    exact hb
                  exact Or.inr ⟨kvs, ckvs, fkvs, product, firmware, notes, rfl,
                    dictGet_dict_ok hg, dictGet_dict_ok hfc, hbf, hlkp,
                    dictGet_dict_ok hfw, dictGet_dict_ok hno, rfl⟩

theorem hasKey_removeEntry_other (kvs : List (String × Json)) (k k2 : String)
    (h : k2 ≠ k) : hasKey (removeEntry kvs k) k2 = hasKey kvs k2 := by
  simp [hasKey, lookupJ_removeEntry_other kvs k k2 h]

theorem renameGnss_establishes {d e : Json} (h : renameGnss d = .ok e) :
    ∃ c, dictGet e "Components" = .ok c ∧ pyIn "GNSS receiver" c = .ok false := by
  rcases renameGnss_cases h with ⟨rfl, c, hg, hb⟩ | ⟨kvs, ckvs, v0, rfl, hlk, hlk0, rfl⟩
  · exact ⟨c, hg, hb⟩
  · refine ⟨.dict (setEntry (removeEntry ckvs "GNSS receiver") "GNSS Receiver" v0),
      by simp [dictGet, lookupJ_setEntry_self], ?_⟩
    simp only [pyIn, Except.ok.injEq]
    rw [hasKey_setEntry]
    simp [hasKey, lookupJ_removeEntry_self]

theorem renameGnss_fixed {d : Json} {c : Json}
    (hg : dictGet d "Components" = .ok c) (hb : pyIn "GNSS receiver" c = .ok false) :
    renameGnss d = .ok d := by
  simp [renameGnss, bind, Except.bind, hg, hb, pure, Except.pure]

theorem renameGnss_preserves_pyIn_root {d e : Json} (h : renameGnss d = .ok e)
    {k : String} (hp : pyIn k d = .ok true) : pyIn k e = .ok true := by
  rcases renameGnss_cases h with ⟨rfl, _⟩ | ⟨kvs, ckvs, v0, rfl, hlk, hlk0, rfl⟩
  · exact hp
  · simp only [pyIn, Except.ok.injEq] at hp ⊢
    rw [hasKey_setEntry]
    simp [hp]

theorem renameGnss_preserves_pathOk_comps {d e : Json} (h : renameGnss d = .ok e)
    {rest : List String} {k : String}
    (hp : pathOk d ("Components" :: rest) k)
    (h1 : firstStep rest k ≠ "GNSS receiver") (h2 : firstStep rest k ≠ "GNSS Receiver") :
    pathOk e ("Components" :: rest) k := by
  rcases renameGnss_cases h with ⟨rfl, _⟩ | ⟨kvs, ckvs, v0, rfl, hlk, hlk0, rfl⟩
  · exact hp
  · obtain ⟨c, hg, hrest⟩ := hp
    have hc : c = .dict ckvs := by
      have h3 := dictGet_dict_ok hg
      rw [hlk] at h3
      exact (Option.some.inj h3).symm
    subst hc
    refine ⟨.dict (setEntry (removeEntry ckvs "GNSS receiver") "GNSS Receiver" v0),
      by simp [dictGet, lookupJ_setEntry_self], ?_⟩
    cases rest with
    | nil =>
      simp only [firstStep] at h1 h2
      simp only [pathOk, pyIn, Except.ok.injEq] at hrest ⊢
      rw [hasKey_setEntry]
      simp [hasKey_removeEntry_other ckvs _ _ h1, hrest]
    | cons r rs =>
      simp only [firstStep] at h1 h2
      obtain ⟨c2, hg2, hrest2⟩ := hrest
      have hlk2 := dictGet_dict_ok hg2
      refine ⟨c2, ?_, hrest2⟩
      simp [dictGet, lookupJ_setEntry_other _ _ _ _ h2,
        lookupJ_removeEntry_other _ _ _ h1, hlk2]

theorem renameGnss_preserves_resolve_other {d e : Json} (h : renameGnss d = .ok e)
    {a : String} {qs : List String} {w : Json}
    (hq : resolve d (a :: qs) = some w) (ha : a ≠ "Components") :
    resolve e (a :: qs) = some w := by
  rcases renameGnss_cases h with ⟨rfl, _⟩ | ⟨kvs, ckvs, v0, rfl, hlk, hlk0, rfl⟩
  · exact hq
  · rw [resolve_dict_cons] at hq ⊢
    rw [lookupJ_setEntry_other _ _ _ _ ha]
    exact hq

theorem renameGnss_preserves_resolve_comps {d e : Json} (h : renameGnss d = .ok e)
    {r : String} {rs : List String} {w : Json}
    (hq : resolve d ("Components" :: r :: rs) = some w)
    (h1 : r ≠ "GNSS receiver") (h2 : r ≠ "GNSS Receiver") :
    resolve e ("Components" :: r :: rs) = some w := by
  rcases renameGnss_cases h with ⟨rfl, _⟩ | ⟨kvs, ckvs, v0, rfl, hlk, hlk0, rfl⟩
  · exact hq
  · rw [resolve_dict_cons] at hq ⊢
    rw [hlk] at hq
    rw [lookupJ_setEntry_self]
    dsimp only at hq ⊢
    rw [resolve_dict_cons] at hq ⊢
    rw [lookupJ_setEntry_other _ _ _ _ h2, lookupJ_removeEntry_other _ _ _ h1]
    exact hq

theorem ensureFcSpecifications_pathOk {d e : Json}
    (h : ensureFcSpecifications d = .ok e) :
    pathOk e ["Components", "Flight Controller"] "Specifications" := by
  rcases ensureFcSpecifications_cases h with
    ⟨rfl, c, fc, hg, hfc, hb⟩ | ⟨kvs, ckvs, fkvs, product, firmware, notes,
      rfl, hlk, hlkf, hnospec, hp, hf, hn, rfl⟩
  · exact ⟨c, hg, fc, hfc, hb⟩
  · refine ⟨.dict (setEntry ckvs "Flight Controller"
      (.dict [("Product", product), ("Firmware", firmware),
              ("Specifications", .dict [("MCU Series", .str "Unknown")]),
              ("Notes", notes)])),
      by simp [dictGet, lookupJ_setEntry_self], ?_⟩
    refine ⟨.dict [("Product", product), ("Firmware", firmware),
              ("Specifications", .dict [("MCU Series", .str "Unknown")]),
              ("Notes", notes)],
      by simp [dictGet, lookupJ_setEntry_self], ?_⟩
    simp [pathOk, pyIn, hasKey, lookupJ]

theorem ensureFcSpecifications_fixed {d : Json}
    (hp : pathOk d ["Components", "Flight Controller"] "Specifications") :
    ensureFcSpecifications d = .ok d := by
  obtain ⟨c, hg, fc, hfc, hb⟩ := hp
  simp only [pathOk] at hb
  simp [ensureFcSpecifications, bind, Except.bind, hg, hfc, hb, pure, Except.pure]

theorem ensureFcSpecifications_preserves_pyIn_root {d e : Json}
    (h : ensureFcSpecifications d = .ok e) {k : String}
    (hp : pyIn k d = .ok true) : pyIn k e = .ok true := by
  rcases ensureFcSpecifications_cases h with
    ⟨rfl, _⟩ | ⟨kvs, ckvs, fkvs, product, firmware, notes, rfl, hlk, hlkf,
      hnospec, hpp, hf, hn, rfl⟩
  · exact hp
  · simp only [pyIn, Except.ok.injEq] at hp ⊢
    rw [hasKey_setEntry]
    simp [hp]

theorem ensureFcSpecifications_preserves_pathOk_comps_nil {d e : Json}
    (h : ensureFcSpecifications d = .ok e) {k : String}
    (hp : pathOk d ["Components"] k) : pathOk e ["Components"] k := by
  rcases ensureFcSpecifications_cases h with
    ⟨rfl, _⟩ | ⟨kvs, ckvs, fkvs, product, firmware, notes, rfl, hlk, hlkf,
      hnospec, hpp, hf, hn, rfl⟩
  · exact hp
  · obtain ⟨c, hg, hrest⟩ := hp
    have hc : c = .dict ckvs := by
      have h3 := dictGet_dict_ok hg
      rw [hlk] at h3
      exact (Option.some.inj h3).symm
    subst hc
    refine ⟨.dict (setEntry ckvs "Flight Controller"
        (.dict [("Product", product), ("Firmware", firmware),
                ("Specifications", .dict [("MCU Series", .str "Unknown")]),
                ("Notes", notes)])),
      by simp [dictGet, lookupJ_setEntry_self], ?_⟩
    simp only [pathOk, pyIn, Except.ok.injEq] at hrest ⊢
    rw [hasKey_setEntry]
    simp [hrest]

theorem ensureFcSpecifications_preserves_pathOk_comps_deep {d e : Json}
    (h : ensureFcSpecifications d = .ok e) {r : String} {rs : List String} {k : String}
    (hp : pathOk d ("Components" :: r :: rs) k) (hr : r ≠ "Flight Controller") :
    pathOk e ("Components" :: r :: rs) k := by
  rcases ensureFcSpecifications_cases h with
    ⟨rfl, _⟩ | ⟨kvs, ckvs, fkvs, product, firmware, notes, rfl, hlk, hlkf,
      hnospec, hpp, hf, hn, rfl⟩
  · exact hp
  · obtain ⟨c, hg, c2, hg2, hrest2⟩ := hp
    have hc : c = .dict ckvs := by
      have h3 := dictGet_dict_ok hg
      rw [hlk] at h3
      exact (Option.some.inj h3).symm
    subst hc
    refine ⟨.dict (setEntry ckvs "Flight Controller"
        (.dict [("Product", product), ("Firmware", firmware),
                ("Specifications", .dict [("MCU Series", .str "Unknown")]),
                ("Notes", notes)])),
      by simp [dictGet, lookupJ_setEntry_self], c2, ?_, hrest2⟩
    have hlk2 := dictGet_dict_ok hg2
    simp [dictGet, lookupJ_setEntry_other _ _ _ _ hr, hlk2]

theorem ensureFcSpecifications_preserves_gabs {d e : Json}
    (h : ensureFcSpecifications d = .ok e)
    (hg : ∃ c, dictGet d "Components" = .ok c ∧ pyIn "GNSS receiver" c = .ok false) :
    ∃ c, dictGet e "Components" = .ok c ∧ pyIn "GNSS receiver" c = .ok false := by
  rcases ensureFcSpecifications_cases h with
    ⟨rfl, _⟩ | ⟨kvs, ckvs, fkvs, product, firmware, notes, rfl, hlk, hlkf,
      hnospec, hpp, hf, hn, rfl⟩
  · exact hg
  · obtain ⟨c, hgc, hb⟩ := hg
    have hc : c = .dict ckvs := by
      have h3 := dictGet_dict_ok hgc
      rw [hlk] at h3
      exact (Option.some.inj h3).symm
    subst hc
    refine ⟨.dict (setEntry ckvs "Flight Controller"
        (.dict [("Product", product), ("Firmware", firmware),
                ("Specifications", .dict [("MCU Series", .str "Unknown")]),
                ("Notes", notes)])),
      by simp [dictGet, lookupJ_setEntry_self], ?_⟩
    simp only [pyIn, Except.ok.injEq] at hb ⊢
    rw [hasKey_setEntry]
    simp [hb]

theorem ensureFcSpecifications_preserves_resolve_other {d e : Json}
    (h : ensureFcSpecifications d = .ok e) {a : String} {qs : List String} {w : Json}
    (hq : resolve d (a :: qs) = some w) (ha : a ≠ "Components") :
    resolve e (a :: qs) = some w := by
  rcases ensureFcSpecifications_cases h with
    ⟨rfl, _⟩ | ⟨kvs, ckvs, fkvs, product, firmware, notes, rfl, hlk, hlkf,
      hnospec, hpp, hf, hn, rfl⟩
  · exact hq
  · rw [resolve_dict_cons] at hq ⊢
    rw [lookupJ_setEntry_other _ _ _ _ ha]
    exact hq

theorem ensureFcSpecifications_preserves_resolve_comps {d e : Json}
    (h : ensureFcSpecifications d = .ok e) {r : String} {rs : List String} {w : Json}
    (hq : resolve d ("Components" :: r :: rs) = some w) (hr : r ≠ "Flight Controller") :
    resolve e ("Components" :: r :: rs) = some w := by
  rcases ensureFcSpecifications_cases h with
    ⟨rfl, _⟩ | ⟨kvs, ckvs, fkvs, product, firmware, notes, rfl, hlk, hlkf,
      hnospec, hpp, hf, hn, rfl⟩
  · exact hq
  · rw [resolve_dict_cons] at hq ⊢
    rw [hlk] at hq
    rw [lookupJ_setEntry_self]
    dsimp only at hq ⊢
    rw [resolve_dict_cons] at hq ⊢
    rw [lookupJ_setEntry_other _ _ _ _ hr]
    exact hq

theorem ensureFcSpecifications_preserves_resolve_fcfield {d e : Json}
    (h : ensureFcSpecifications d = .ok e) {x : String} {w : Json}
    (hq : resolve d ["Components", "Flight Controller", x] = some w)
    (hx : x = "Product" ∨ x = "Firmware" ∨ x = "Notes") :
    resolve e ["Components", "Flight Controller", x] = some w := by
  rcases ensureFcSpecifications_cases h with
    ⟨rfl, _⟩ | ⟨kvs, ckvs, fkvs, product, firmware, notes, rfl, hlk, hlkf,
      hnospec, hpp, hf, hn, rfl⟩
  · exact hq
  · rw [resolve_dict_cons] at hq ⊢
    rw [hlk] at hq
    rw [lookupJ_setEntry_self]
    dsimp only at hq ⊢
    rw [resolve_dict_cons] at hq ⊢
    rw [hlkf] at hq
    rw [lookupJ_setEntry_self]
    dsimp only at hq ⊢
    rw [resolve_dict_cons] at hq ⊢
    rcases hx with rfl | rfl | rfl
    · rw [hpp] at hq
      simp [lookupJ]
      simpa [resolve] using hq
    · rw [hf] at hq
      simp [lookupJ]
      simpa [resolve] using hq
    · rw [hn] at hq
      simp [lookupJ]
      simpa [resolve] using hq

theorem dictSet_preserves_pyIn_root {d e : Json} {k : String} {v : Json}
    (h : dictSet d k v = .ok e) {k2 : String}
    (hp : pyIn k2 d = .ok true) : pyIn k2 e = .ok true := by
  obtain ⟨kvs, rfl, rfl⟩ := dictSet_ok h
  simp only [pyIn, Except.ok.injEq] at hp ⊢
  rw [hasKey_setEntry]
  simp [hp]

theorem dictSet_preserves_pathOk_deep {d e : Json} {k : String} {v : Json}
    (h : dictSet d k v = .ok e) {p : String} {ps : List String} {k2 : String}
    (hp : pathOk d (p :: ps) k2) (hpk : p ≠ k) : pathOk e (p :: ps) k2 := by
  obtain ⟨kvs, rfl, rfl⟩ := dictSet_ok h
  obtain ⟨c, hg, hrest⟩ := hp
  have hlk := dictGet_dict_ok hg
  exact ⟨c, by simp [dictGet, lookupJ_setEntry_other _ _ _ _ hpk, hlk], hrest⟩

theorem dictSet_resolve_self {d e : Json} {k : String} {v : Json}
    (h : dictSet d k v = .ok e) : resolve e [k] = some v := by
  obtain ⟨kvs, rfl, rfl⟩ := dictSet_ok h
  rw [resolve_dict_cons, lookupJ_setEntry_self]
  simp [resolve]

theorem dictSet_preserves_resolve_other {d e : Json} {k : String} {v : Json}
    (h : dictSet d k v = .ok e) {a : String} {qs : List String} {w : Json}
    (hq : resolve d (a :: qs) = some w) (ha : a ≠ k) : resolve e (a :: qs) = some w := by
  obtain ⟨kvs, rfl, rfl⟩ := dictSet_ok h
  rw [resolve_dict_cons] at hq ⊢
  rw [lookupJ_setEntry_other _ _ _ _ ha]
  exact hq

theorem dictSet_preserves_gabs {d e : Json} {k : String} {v : Json}
    (h : dictSet d k v = .ok e) (hk : k ≠ "Components")
    (hg : ∃ c, dictGet d "Components" = .ok c ∧ pyIn "GNSS receiver" c = .ok false) :
    ∃ c, dictGet e "Components" = .ok c ∧ pyIn "GNSS receiver" c = .ok false := by
  obtain ⟨kvs, rfl, rfl⟩ := dictSet_ok h
  obtain ⟨c, hgc, hb⟩ := hg
  have hlk := dictGet_dict_ok hgc
  refine ⟨c, ?_, hb⟩
  simp [dictGet, lookupJ_setEntry_other _ _ _ _ (Ne.symm hk), hlk]

theorem ensureRec_comps_preserves_gabs {d e : Json} {k2 : String} {v : Json}
    (h : ensureRec d ["Components"] k2 v = .ok e) (hk : k2 ≠ "GNSS receiver")
    (hg : ∃ c, dictGet d "Components" = .ok c ∧ pyIn "GNSS receiver" c = .ok false) :
    ∃ c, dictGet e "Components" = .ok c ∧ pyIn "GNSS receiver" c = .ok false := by
  obtain ⟨c, hgc, hb⟩ := hg
  simp only [ensureRec, bind, Except.bind] at h
  rw [hgc] at h
  dsimp only at h
  cases hbk : pyIn k2 c with
  | error er => rw [hbk] at h; simp at h
  | ok b =>
    rw [hbk] at h
    dsimp only at h
    cases b with
    | true =>
      simp only [if_true, pure, Except.pure] at h
      obtain ⟨kvs, rfl, rfl⟩ := dictSet_ok h
      exact ⟨c, by simp [dictGet, lookupJ_setEntry_self], hb⟩
    | false =>
      simp only [Bool.false_eq_true, if_false] at h
      cases hset : dictSet c k2 v with
      | error er => rw [hset] at h; simp at h
      | ok c2 =>
        rw [hset] at h
        dsimp only at h
        obtain ⟨kvs, rfl, rfl⟩ := dictSet_ok h
        obtain ⟨ckvs, rfl, rfl⟩ := dictSet_ok hset
        refine ⟨.dict (setEntry ckvs k2 v),
          by simp [dictGet, lookupJ_setEntry_self], ?_⟩
        simp only [pyIn, Except.ok.injEq] at hb ⊢
        rw [hasKey_setEntry]
        simp [hb]
        intro hcontra
        exact absurd hcontra.symm hk

theorem migrate_forward {d e : Json} (h : updateVehicleComponents d = .ok e)
    (ht : pyTruthy d = true) : Migrated e := by
  rw [updateVehicleComponents] at h
  rw [ht] at h
  simp only [Bool.true_eq_false, not_true_eq_false, if_false, bind, Except.bind] at h
  cases h1 : ensureRec d [] "Components" (.dict []) with
  | error er => rw [h1] at h; simp at h
  | ok d1 =>
  rw [h1] at h
  dsimp only at h
  cases h2 : ensureRec d1 ["Components"] "Battery" (.dict []) with
  | error er => rw [h2] at h; simp at h
  | ok d2 =>
  rw [h2] at h
  dsimp only at h
  cases h3 : ensureRec d2 ["Components", "Battery"] "Specifications" (.dict []) with
  | error er => rw [h3] at h; simp at h
  | ok d3 =>
  rw [h3] at h
  dsimp only at h
  cases h4 : ensureRec d3 ["Components", "Battery", "Specifications"] "Chemistry"
      (.str "Lipo") with
  | error er => rw [h4] at h; simp at h
  | ok d4 =>
  rw [h4] at h
  dsimp only at h
  cases h5 : ensureRec d4 ["Components", "Battery", "Specifications"] "Capacity mAh"
      (.int 0) with
  | error er => rw [h5] at h; simp at h
  | ok d5 =>
  rw [h5] at h
  dsimp only at h
  cases h6 : ensureRec d5 ["Components"] "Frame" (.dict []) with
  | error er => rw [h6] at h; simp at h
  | ok d6 =>
  rw [h6] at h
  dsimp only at h
  cases h7 : ensureRec d6 ["Components", "Frame"] "Specifications" (.dict []) with
  | error er => rw [h7] at h; simp at h
  | ok d7 =>
  rw [h7] at h
  dsimp only at h
  cases h8 : ensureRec d7 ["Components", "Frame", "Specifications"] "TOW min Kg"
      (.int 1) with
  | error er => rw [h8] at h; simp at h
  | ok d8 =>
  rw [h8] at h
  dsimp only at h
  cases h9 : ensureRec d8 ["Components", "Frame", "Specifications"] "TOW max Kg"
      (.int 1) with
  | error er => rw [h9] at h; simp at h
  | ok d9 =>
  rw [h9] at h
  dsimp only at h
  cases h10 : renameGnss d9 with
  | error er => rw [h10] at h; simp at h
  | ok d10 =>
  rw [h10] at h
  dsimp only at h
  cases h11 : dictSet d10 "Program version" (.str programVersion) with
  | error er => rw [h11] at h; simp at h
  | ok d11 =>
  rw [h11] at h
  dsimp only at h
  cases h12 : ensureRec d11 ["Components"] "Flight Controller" (.dict []) with
  | error er => rw [h12] at h; simp at h
  | ok d12 =>
  rw [h12] at h
  dsimp only at h
  have h13 : ensureFcSpecifications d12 = .ok e := h
  -- guard 1: the Components key exists from step 1 on
  have g1 : pathOk e [] "Components" := by
    have a1 := ensureRec_pathOk h1
    have a2 := ensureRec_preserves_pathOk h2 a1
    have a3 := ensureRec_preserves_pathOk h3 a2
    have a4 := ensureRec_preserves_pathOk h4 a3
    have a5 := ensureRec_preserves_pathOk h5 a4
    have a6 := ensureRec_preserves_pathOk h6 a5
    have a7 := ensureRec_preserves_pathOk h7 a6
    have a8 := ensureRec_preserves_pathOk h8 a7
    have a9 := ensureRec_preserves_pathOk h9 a8
    have a10 : pyIn "Components" d10 = .ok true :=
      renameGnss_preserves_pyIn_root h10 a9
    have a11 : pyIn "Components" d11 = .ok true :=
      dictSet_preserves_pyIn_root h11 a10
    have a12 := ensureRec_preserves_pathOk h12
      (show pathOk d11 [] "Components" from a11)
    exact ensureFcSpecifications_preserves_pyIn_root h13
      (show pyIn "Components" d12 = .ok true from a12)
  have g2 : pathOk e ["Components"] "Battery" := by
    have a2 := ensureRec_pathOk h2
    have a3 := ensureRec_preserves_pathOk h3 a2
    have a4 := ensureRec_preserves_pathOk h4 a3
    have a5 := ensureRec_preserves_pathOk h5 a4
    have a6 := ensureRec_preserves_pathOk h6 a5
    have a7 := ensureRec_preserves_pathOk h7 a6
    have a8 := ensureRec_preserves_pathOk h8 a7
    have a9 := ensureRec_preserves_pathOk h9 a8
    have a10 := renameGnss_preserves_pathOk_comps h10 a9 (by decide) (by decide)
    have a11 := dictSet_preserves_pathOk_deep h11 a10 (by decide)
    have a12 := ensureRec_preserves_pathOk h12 a11
    exact ensureFcSpecifications_preserves_pathOk_comps_nil h13 a12
  have g3 : pathOk e ["Components", "Battery"] "Specifications" := by
    have a3 := ensureRec_pathOk h3
    have a4 := ensureRec_preserves_pathOk h4 a3
    have a5 := ensureRec_preserves_pathOk h5 a4
    have a6 := ensureRec_preserves_pathOk h6 a5
    have a7 := ensureRec_preserves_pathOk h7 a6
    have a8 := ensureRec_preserves_pathOk h8 a7
    have a9 := ensureRec_preserves_pathOk h9 a8
    have a10 := renameGnss_preserves_pathOk_comps h10 a9 (by decide) (by decide)
    have a11 := dictSet_preserves_pathOk_deep h11 a10 (by decide)
    have a12 := ensureRec_preserves_pathOk h12 a11
    exact ensureFcSpecifications_preserves_pathOk_comps_deep h13 a12 (by decide)
  have g4 : pathOk e ["Components", "Battery", "Specifications"] "Chemistry" := by
    have a4 := ensureRec_pathOk h4
    have a5 := ensureRec_preserves_pathOk h5 a4
    have a6 := ensureRec_preserves_pathOk h6 a5
    have a7 := ensureRec_preserves_pathOk h7 a6
    have a8 := ensureRec_preserves_pathOk h8 a7
    have a9 := ensureRec_preserves_pathOk h9 a8
    have a10 := renameGnss_preserves_pathOk_comps h10 a9 (by decide) (by decide)
    have a11 := dictSet_preserves_pathOk_deep h11 a10 (by decide)
    have a12 := ensureRec_preserves_pathOk h12 a11
    exact ensureFcSpecifications_preserves_pathOk_comps_deep h13 a12 (by decide)
  have g5 : pathOk e ["Components", "Battery", "Specifications"] "Capacity mAh" := by
    have a5 := ensureRec_pathOk h5
    have a6 := ensureRec_preserves_pathOk h6 a5
    have a7 := ensureRec_preserves_pathOk h7 a6
    have a8 := ensureRec_preserves_pathOk h8 a7
    have a9 := ensureRec_preserves_pathOk h9 a8
    have a10 := renameGnss_preserves_pathOk_comps h10 a9 (by decide) (by decide)
    have a11 := dictSet_preserves_pathOk_deep h11 a10 (by decide)
    have a12 := ensureRec_preserves_pathOk h12 a11
    exact ensureFcSpecifications_preserves_pathOk_comps_deep h13 a12 (by decide)
  have g6 : pathOk e ["Components"] "Frame" := by
    have a6 := ensureRec_pathOk h6
    have a7 := ensureRec_preserves_pathOk h7 a6
    have a8 := ensureRec_preserves_pathOk h8 a7
    have a9 := ensureRec_preserves_pathOk h9 a8
    have a10 := renameGnss_preserves_pathOk_comps h10 a9 (by decide) (by decide)
    have a11 := dictSet_preserves_pathOk_deep h11 a10 (by decide)
    have a12 := ensureRec_preserves_pathOk h12 a11
    exact ensureFcSpecifications_preserves_pathOk_comps_nil h13 a12
  have g7 : pathOk e ["Components", "Frame"] "Specifications" := by
    have a7 := ensureRec_pathOk h7
    have a8 := ensureRec_preserves_pathOk h8 a7
    have a9 := ensureRec_preserves_pathOk h9 a8
    have a10 := renameGnss_preserves_pathOk_comps h10 a9 (by decide) (by decide)
    have a11 := dictSet_preserves_pathOk_deep h11 a10 (by decide)
    have a12 := ensureRec_preserves_pathOk h12 a11
    exact ensureFcSpecifications_preserves_pathOk_comps_deep h13 a12 (by decide)
  have g8 : pathOk e ["Components", "Frame", "Specifications"] "TOW min Kg" := by
    have a8 := ensureRec_pathOk h8
    have a9 := ensureRec_preserves_pathOk h9 a8
    have a10 := renameGnss_preserves_pathOk_comps h10 a9 (by decide) (by decide)
    have a11 := dictSet_preserves_pathOk_deep h11 a10 (by decide)
    have a12 := ensureRec_preserves_pathOk h12 a11
    exact ensureFcSpecifications_preserves_pathOk_comps_deep h13 a12 (by decide)
  have g9 : pathOk e ["Components", "Frame", "Specifications"] "TOW max Kg" := by
    have a9 := ensureRec_pathOk h9
    have a10 := renameGnss_preserves_pathOk_comps h10 a9 (by decide) (by decide)
    have a11 := dictSet_preserves_pathOk_deep h11 a10 (by decide)
    have a12 := ensureRec_preserves_pathOk h12 a11
    exact ensureFcSpecifications_preserves_pathOk_comps_deep h13 a12 (by decide)
  have g10 : ∃ c, dictGet e "Components" = .ok c ∧
      pyIn "GNSS receiver" c = .ok false := by
    have a10 := renameGnss_establishes h10
    have a11 := dictSet_preserves_gabs h11 (by decide) a10
    have a12 := ensureRec_comps_preserves_gabs h12 (by decide) a11
    exact ensureFcSpecifications_preserves_gabs h13 a12
  have g11 : resolve e ["Program version"] = some (.str programVersion) := by
    have a11 := dictSet_resolve_self h11
    have a12 := ensureRec_preserves_resolve h12 a11 (by decide)
    exact ensureFcSpecifications_preserves_resolve_other h13 a12 (by decide)
  have g12 : pathOk e ["Components"] "Flight Controller" := by
    have a12 := ensureRec_pathOk h12
    exact ensureFcSpecifications_preserves_pathOk_comps_nil h13 a12
  have g13 : pathOk e ["Components", "Flight Controller"] "Specifications" :=
    ensureFcSpecifications_pathOk h13
  exact ⟨g1, g2, g3, g4, g5, g6, g7, g8, g9, g10, g11, g12, g13⟩

theorem migrate_noop {e : Json} (hM : Migrated e) :
    updateVehicleComponents e = .ok e := by
  obtain ⟨g1, g2, g3, g4, g5, g6, g7, g8, g9, g10, g11, g12, g13⟩ := hM
  obtain ⟨c0, hg0, hrest0⟩ := g2
  obtain ⟨kvs, rfl, hlk0⟩ := dictGet_ok hg0
  have g2 : pathOk (Json.dict kvs) ["Components"] "Battery" := ⟨c0, hg0, hrest0⟩
  have hte : pyTruthy (Json.dict kvs) = true := by
    simp [pyTruthy]
    exact lookupJ_ne_nil hlk0
  have hpv : lookupJ kvs "Program version" = some (.str programVersion) := by
    have g11b := g11
    rw [resolve_dict_cons] at g11b
    cases hl : lookupJ kvs "Program version" with
    | none => rw [hl] at g11b; simp at g11b
    | some w =>
      rw [hl] at g11b
      simp [resolve] at g11b
      rw [g11b]
  have e1 := ensureRec_skip (Json.dict []) g1
  have e2 := ensureRec_skip (Json.dict []) g2
  have e3 := ensureRec_skip (Json.dict []) g3
  have e4 := ensureRec_skip (Json.str "Lipo") g4
  have e5 := ensureRec_skip (Json.int 0) g5
  have e6 := ensureRec_skip (Json.dict []) g6
  have e7 := ensureRec_skip (Json.dict []) g7
  have e8 := ensureRec_skip (Json.int 1) g8
  have e9 := ensureRec_skip (Json.int 1) g9
  obtain ⟨cg, hgg, hbg⟩ := g10
  have e10 := renameGnss_fixed hgg hbg
  have e11 : dictSet (Json.dict kvs) "Program version" (.str programVersion) =
      .ok (Json.dict kvs) := by
    simp [dictSet, setEntry_of_lookupJ_eq kvs _ _ hpv]
  have e12 := ensureRec_skip (Json.dict []) g12
  have e13 := ensureFcSpecifications_fixed g13
  rw [updateVehicleComponents]
  rw [hte]
  simp only [Bool.true_eq_false, not_true_eq_false, if_false, bind, Except.bind]
  rw [e1]
  dsimp only
  rw [e2]
  dsimp only
  rw [e3]
  dsimp only
  rw [e4]
  dsimp only
  rw [e5]
  dsimp only
  rw [e6]
  dsimp only
  rw [e7]
  dsimp only
  rw [e8]
  dsimp only
  rw [e9]
  dsimp only
  rw [e10]
  dsimp only
  rw [e11]
  dsimp only
  rw [e12]
  dsimp only
  exact e13

/-- Claim C4 (status confirmed): the migration pass is idempotent.  In the
embedding a Python exception is an error value, so the composition is the
Kleisli one: running the migration on its own successful output changes
nothing, and a failing run composed with another run fails identically.
Hence migrate(migrate(d)) = migrate(d) for every document d. -/
theorem claimC4_migration_idempotent (d : Json) :
    (updateVehicleComponents d).bind updateVehicleComponents =
      updateVehicleComponents d := by
  cases h : updateVehicleComponents d with
  | error er => rfl
  | ok e =>
    show Except.bind (Except.ok e) updateVehicleComponents = Except.ok e
    simp only [Except.bind]
    by_cases ht : pyTruthy d = true
    · exact migrate_noop (migrate_forward h ht)
    · rw [updateVehicleComponents] at h
      simp only [Bool.not_eq_true] at ht
      rw [ht] at h
      simp only [Bool.false_eq_true, not_false_eq_true, if_true,
        Except.ok.injEq] at h
      subst h
      rfl

theorem resolve_append (d : Json) (q1 q2 : List String) :
    resolve d (q1 ++ q2) = (resolve d q1).bind (fun u => resolve u q2) := by
  induction q1 generalizing d with
  | nil => simp [resolve]
  | cons a q1 ih =>
    cases d with
    | dict kvs =>
      rw [List.cons_append, resolve_dict_cons, resolve_dict_cons]
      cases hl : lookupJ kvs a with
      | none => simp
      | some c => simp [ih c]
    | null => simp [resolve]
    | bool b => simp [resolve]
    | int n => simp [resolve]
    | float q => simp [resolve]
    | str s => simp [resolve]
    | arr xs => simp [resolve]

theorem ensureRec_empty_preserves_absence {p2 : List String} {d e : Json}
    {k2 : String} (h : ensureRec d p2 k2 (.dict []) = .ok e) {r : List String}
    (hr : r ≠ [])
    (hm : mapsAlong d (p2 ++ [k2] ++ r) = true)
    (habs : resolve d (p2 ++ [k2] ++ r) = none) :
    mapsAlong e (p2 ++ [k2] ++ r) = true ∧ resolve e (p2 ++ [k2] ++ r) = none := by
  induction p2 generalizing d e with
  | nil =>
    simp only [ensureRec, bind, Except.bind] at h
    cases hb : pyIn k2 d with
    | error er => rw [hb] at h; simp at h
    | ok b =>
      rw [hb] at h
      cases b with
      | true =>
        simp only [if_true, pure, Except.pure, Except.ok.injEq] at h
        subst h
        exact ⟨hm, habs⟩
      | false =>
        simp only [Bool.false_eq_true, if_false] at h
        obtain ⟨kvs, rfl, rfl⟩ := dictSet_ok h
        cases r with
        | nil => exact absurd rfl hr
        | cons r0 rs =>
          constructor
          · simp only [List.nil_append, List.cons_append, mapsAlong,
              lookupJ_setEntry_self]
            cases rs <;> simp [mapsAlong, lookupJ]
          · simp only [List.nil_append, List.cons_append]
            rw [resolve_dict_cons, lookupJ_setEntry_self]
            dsimp only
            rw [resolve_dict_cons]
            simp [lookupJ]
  | cons p ps ih =>
    simp only [ensureRec, bind, Except.bind] at h
    cases hg : dictGet d p with
    | error er => rw [hg] at h; simp at h
    | ok child =>
      rw [hg] at h
      dsimp only at h
      cases hrec : ensureRec child ps k2 (.dict []) with
      | error er => rw [hrec] at h; simp at h
      | ok child2 =>
        rw [hrec] at h
        dsimp only at h
        obtain ⟨kvs, rfl, rfl⟩ := dictSet_ok h
        have hlk := dictGet_dict_ok hg
        simp only [List.cons_append, List.append_assoc] at hm habs ⊢
        simp only [mapsAlong, hlk] at hm
        rw [resolve_dict_cons, hlk] at habs
        have hm' : mapsAlong child (ps ++ [k2] ++ r) = true := by
          simpa [List.append_assoc] using hm
        have habs' : resolve child (ps ++ [k2] ++ r) = none := by
          simpa [List.append_assoc] using habs
        obtain ⟨hm2, habs2⟩ := ih hrec hm' habs'
        constructor
        · simp only [mapsAlong, lookupJ_setEntry_self]
          simpa [List.append_assoc] using hm2
        · rw [resolve_dict_cons, lookupJ_setEntry_self]
          simpa [List.append_assoc] using habs2

theorem updateVehicleComponents_steps {d e : Json}
    (ht : pyTruthy d = true) (h : updateVehicleComponents d = .ok e) :
    ∃ d1 d2 d3 d4 d5 d6 d7 d8 d9 d10 d11 d12,
      ensureRec d [] "Components" (.dict []) = .ok d1 ∧
      ensureRec d1 ["Components"] "Battery" (.dict []) = .ok d2 ∧
      ensureRec d2 ["Components", "Battery"] "Specifications" (.dict []) = .ok d3 ∧
      ensureRec d3 ["Components", "Battery", "Specifications"] "Chemistry"
        (.str "Lipo") = .ok d4 ∧
      ensureRec d4 ["Components", "Battery", "Specifications"] "Capacity mAh"
        (.int 0) = .ok d5 ∧
      ensureRec d5 ["Components"] "Frame" (.dict []) = .ok d6 ∧
      ensureRec d6 ["Components", "Frame"] "Specifications" (.dict []) = .ok d7 ∧
      ensureRec d7 ["Components", "Frame", "Specifications"] "TOW min Kg"
        (.int 1) = .ok d8 ∧
      ensureRec d8 ["Components", "Frame", "Specifications"] "TOW max Kg"
        (.int 1) = .ok d9 ∧
      renameGnss d9 = .ok d10 ∧
      dictSet d10 "Program version" (.str programVersion) = .ok d11 ∧
      ensureRec d11 ["Components"] "Flight Controller" (.dict []) = .ok d12 ∧
      ensureFcSpecifications d12 = .ok e := by
  rw [updateVehicleComponents] at h
  rw [ht] at h
  simp only [Bool.true_eq_false, not_true_eq_false, if_false, bind, Except.bind] at h
  cases h1 : ensureRec d [] "Components" (.dict []) with
  | error er => rw [h1] at h; simp at h
  | ok d1 =>
  rw [h1] at h
  dsimp only at h
  cases h2 : ensureRec d1 ["Components"] "Battery" (.dict []) with
  | error er => rw [h2] at h; simp at h
  | ok d2 =>
  rw [h2] at h
  dsimp only at h
  cases h3 : ensureRec d2 ["Components", "Battery"] "Specifications" (.dict []) with
  | error er => rw [h3] at h; simp at h
  | ok d3 =>
  rw [h3] at h
  dsimp only at h
  cases h4 : ensureRec d3 ["Components", "Battery", "Specifications"] "Chemistry"
      (.str "Lipo") with
  | error er => rw [h4] at h; simp at h
  | ok d4 =>
  rw [h4] at h
  dsimp only at h
  cases h5 : ensureRec d4 ["Components", "Battery", "Specifications"] "Capacity mAh"
      (.int 0) with
  | error er => rw [h5] at h; simp at h
  | ok d5 =>
  rw [h5] at h
  dsimp only at h
  cases h6 : ensureRec d5 ["Components"] "Frame" (.dict []) with
  | error er => rw [h6] at h; simp at h
  | ok d6 =>
  rw [h6] at h
  dsimp only at h
  cases h7 : ensureRec d6 ["Components", "Frame"] "Specifications" (.dict []) with
  | error er => rw [h7] at h; simp at h
  | ok d7 =>
  rw [h7] at h
  dsimp only at h
  cases h8 : ensureRec d7 ["Components", "Frame", "Specifications"] "TOW min Kg"
      (.int 1) with
  | error er => rw [h8] at h; simp at h
  | ok d8 =>
  rw [h8] at h
  dsimp only at h
  cases h9 : ensureRec d8 ["Components", "Frame", "Specifications"] "TOW max Kg"
      (.int 1) with
  | error er => rw [h9] at h; simp at h
  | ok d9 =>
  rw [h9] at h
  dsimp only at h
  cases h10 : renameGnss d9 with
  | error er => rw [h10] at h; simp at h
  | ok d10 =>
  rw [h10] at h
  dsimp only at h
  cases h11 : dictSet d10 "Program version" (.str programVersion) with
  | error er => rw [h11] at h; simp at h
  | ok d11 =>
  rw [h11] at h
  dsimp only at h
  cases h12 : ensureRec d11 ["Components"] "Flight Controller" (.dict []) with
  | error er => rw [h12] at h; simp at h
  | ok d12 =>
  rw [h12] at h
  dsimp only at h
  exact ⟨d1, d2, d3, d4, d5, d6, d7, d8, d9, d10, d11, d12,
    rfl, h2, h3, h4, h5, h6, h7, h8, h9, h10, h11, h12, h⟩

theorem not_prefixOf_second_ne {x t : String} {l m : List String} (h : x ≠ t) :
    ¬ ("Components" :: x :: l) <+: ("Components" :: t :: m) := by
  intro hpre
  rcases List.cons_prefix_cons.mp hpre with ⟨-, hpre2⟩
  rcases List.cons_prefix_cons.mp hpre2 with ⟨hb, -⟩
  exact h hb

theorem battery_chain_tail_preserved {d5 e : Json} {rest : List String} {w : Json}
    {d6 d7 d8 d9 d10 d11 d12 : Json}
    (h6 : ensureRec d5 ["Components"] "Frame" (.dict []) = .ok d6)
    (h7 : ensureRec d6 ["Components", "Frame"] "Specifications" (.dict []) = .ok d7)
    (h8 : ensureRec d7 ["Components", "Frame", "Specifications"] "TOW min Kg"
      (.int 1) = .ok d8)
    (h9 : ensureRec d8 ["Components", "Frame", "Specifications"] "TOW max Kg"
      (.int 1) = .ok d9)
    (h10 : renameGnss d9 = .ok d10)
    (h11 : dictSet d10 "Program version" (.str programVersion) = .ok d11)
    (h12 : ensureRec d11 ["Components"] "Flight Controller" (.dict []) = .ok d12)
    (h13 : ensureFcSpecifications d12 = .ok e)
    (hq : resolve d5 ("Components" :: "Battery" :: rest) = some w) :
    resolve e ("Components" :: "Battery" :: rest) = some w := by
  have a6 := ensureRec_preserves_resolve h6 hq (not_prefixOf_second_ne (by decide))
  have a7 := ensureRec_preserves_resolve h7 a6 (not_prefixOf_second_ne (by decide))
  have a8 := ensureRec_preserves_resolve h8 a7 (not_prefixOf_second_ne (by decide))
  have a9 := ensureRec_preserves_resolve h9 a8 (not_prefixOf_second_ne (by decide))
  have a10 := renameGnss_preserves_resolve_comps h10 a9 (by decide) (by decide)
  have a11 := dictSet_preserves_resolve_other h11 a10 (by decide)
  have a12 := ensureRec_preserves_resolve h12 a11 (not_prefixOf_second_ne (by decide))
  exact ensureFcSpecifications_preserves_resolve_comps h13 a12 (by decide)

theorem resolve_prefix_isSome {d : Json} {q1 q2 : List String} {v : Json}
    (h : resolve d (q1 ++ q2) = some v) : ∃ u, resolve d q1 = some u := by
  rw [resolve_append] at h
  cases hc : resolve d q1 with
  | none => rw [hc] at h; simp at h
  | some u => exact ⟨u, rfl⟩

/-- Claim C7 counterexample: the migration returns the empty document
unchanged for a falsy input, so a document missing
Components.Battery.Specifications.Chemistry does not, in general, come out
with that field present: migrate({}) = {}. -/
theorem claimC7_counterexample :
    updateVehicleComponents (.dict []) = .ok (.dict []) ∧
    resolve (Json.dict [])
      ["Components", "Battery", "Specifications", "Chemistry"] = none :=
  ⟨rfl, rfl⟩

/-- Claim C7 (status corrected): for every truthy document on which the
migration succeeds and whose existing nodes along
Components.Battery.Specifications.Chemistry are mappings, the output keeps
an already-present Chemistry value unchanged, and when the field is absent
the output has it set to the documented default "Lipo".  (The claim as
stated fails on the empty document, which is returned unchanged, and on
documents on which the migration raises, e.g. any nonempty document without
a rebuildable Flight Controller.) -/
theorem claimC7_battery_chemistry_default (d e : Json)
    (ht : pyTruthy d = true)
    (hok : updateVehicleComponents d = .ok e)
    (hmaps : mapsAlong d
      ["Components", "Battery", "Specifications", "Chemistry"] = true) :
    (∀ v, resolve d ["Components", "Battery", "Specifications", "Chemistry"] =
        some v →
      resolve e ["Components", "Battery", "Specifications", "Chemistry"] =
        some v) ∧
    (resolve d ["Components", "Battery", "Specifications", "Chemistry"] = none →
      resolve e ["Components", "Battery", "Specifications", "Chemistry"] =
        some (.str "Lipo")) := by
  obtain ⟨d1, d2, d3, d4, d5, d6, d7, d8, d9, d10, d11, d12,
    h1, h2, h3, h4, h5, h6, h7, h8, h9, h10, h11, h12, h13⟩ :=
    updateVehicleComponents_steps ht hok
  constructor
  · intro v hv
    obtain ⟨u1, hu1⟩ := @resolve_prefix_isSome d ["Components"]
      ["Battery", "Specifications", "Chemistry"] v hv
    obtain ⟨u2, hu2⟩ := @resolve_prefix_isSome d ["Components", "Battery"]
      ["Specifications", "Chemistry"] v hv
    obtain ⟨u3, hu3⟩ := @resolve_prefix_isSome d
      ["Components", "Battery", "Specifications"] ["Chemistry"] v hv
    have e1 : d1 = d := ensureRec_of_present h1 hu1
    subst e1
    have e2 : d2 = d1 := ensureRec_of_present h2 hu2
    subst e2
    have e3 : d3 = d2 := ensureRec_of_present h3 hu3
    subst e3
    have e4 : d4 = d3 := ensureRec_of_present h4 hv
    subst e4
    have a5 := ensureRec_preserves_resolve h5 hv (by decide)
    exact battery_chain_tail_preserved h6 h7 h8 h9 h10 h11 h12 h13 a5
  · intro habs
    obtain ⟨m1, n1⟩ := ensureRec_empty_preserves_absence h1 (by decide) hmaps habs
    obtain ⟨m2, n2⟩ := ensureRec_empty_preserves_absence h2 (by decide) m1 n1
    obtain ⟨m3, n3⟩ := ensureRec_empty_preserves_absence h3 (by decide) m2 n2
    have hins := ensureRec_inserts h4 m3 n3
    have a5 := ensureRec_preserves_resolve h5 hins (by decide)
    exact battery_chain_tail_preserved h6 h7 h8 h9 h10 h11 h12 h13 a5

/-- Claim C7 witness: the amended statement applied to a concrete document
lacking the Battery subtree entirely; after migration Chemistry is "Lipo". -/
theorem claimC7_battery_chemistry_default_witness :
    resolve
      (Json.dict [("Components", .dict
        [("Flight Controller", .dict [("Specifications", .dict [])]),
         ("Battery", .dict [("Specifications", .dict
           [("Chemistry", .str "Lipo"), ("Capacity mAh", .int 0)])]),
         ("Frame", .dict [("Specifications", .dict
           [("TOW min Kg", .int 1), ("TOW max Kg", .int 1)])])]),
        ("Program version", .str "2.0.0")])
      ["Components", "Battery", "Specifications", "Chemistry"] =
      some (.str "Lipo") :=
  (claimC7_battery_chemistry_default
    (.dict [("Components", .dict
      [("Flight Controller", .dict [("Specifications", .dict [])])])])
    (.dict [("Components", .dict
      [("Flight Controller", .dict [("Specifications", .dict [])]),
       ("Battery", .dict [("Specifications", .dict
         [("Chemistry", .str "Lipo"), ("Capacity mAh", .int 0)])]),
       ("Frame", .dict [("Specifications", .dict
         [("TOW min Kg", .int 1), ("TOW max Kg", .int 1)])])]),
      ("Program version", .str "2.0.0")])
    rfl rfl rfl).2 rfl

theorem truthy_of_resolve_cons {d : Json} {a : String} {qs : List String} {v : Json}
    (h : resolve d (a :: qs) = some v) : pyTruthy d = true := by
  cases d with
  | dict kvs =>
    rw [resolve_dict_cons] at h
    cases hl : lookupJ kvs a with
    | none => rw [hl] at h; simp at h
    | some c =>
      simp [pyTruthy]
      exact lookupJ_ne_nil hl
  | null => simp [resolve] at h
  | bool b => simp [resolve] at h
  | int n => simp [resolve] at h
  | float q => simp [resolve] at h
  | str s => simp [resolve] at h
  | arr xs => simp [resolve] at h

theorem ensureRec_preserves_none {p2 : List String} {d e : Json} {k2 : String}
    {v : Json} (h : ensureRec d p2 k2 v = .ok e) {q : List String}
    (hn : resolve d q = none) (hq1 : ¬ q <+: (p2 ++ [k2]))
    (hq2 : ¬ (p2 ++ [k2]) <+: q) : resolve e q = none := by
  induction p2 generalizing d e q with
  | nil =>
    simp only [ensureRec, bind, Except.bind] at h
    cases hb : pyIn k2 d with
    | error er => rw [hb] at h; simp at h
    | ok b =>
      rw [hb] at h
      cases b with
      | true =>
        simp only [if_true, pure, Except.pure, Except.ok.injEq] at h
        subst h
        exact hn
      | false =>
        simp only [Bool.false_eq_true, if_false] at h
        obtain ⟨kvs, rfl, rfl⟩ := dictSet_ok h
        cases q with
        | nil => exact absurd List.nil_prefix hq1
        | cons a qs =>
          by_cases hak : a = k2
          · subst hak
            cases qs with
            | nil => exact absurd (by simp) hq1
            | cons b bs => exact absurd (List.cons_prefix_cons.mpr ⟨rfl, List.nil_prefix⟩) hq2
          · rw [resolve_dict_cons] at hn ⊢
            rw [lookupJ_setEntry_other kvs k2 a v hak]
            exact hn
  | cons p ps ih =>
    simp only [ensureRec, bind, Except.bind] at h
    cases hg : dictGet d p with
    | error er => rw [hg] at h; simp at h
    | ok child =>
      rw [hg] at h
      dsimp only at h
      cases hrec : ensureRec child ps k2 v with
      | error er => rw [hrec] at h; simp at h
      | ok child2 =>
        rw [hrec] at h
        dsimp only at h
        obtain ⟨kvs, rfl, rfl⟩ := dictSet_ok h
        have hlk := dictGet_dict_ok hg
        cases q with
        | nil => exact absurd List.nil_prefix hq1
        | cons a qs =>
          by_cases hap : a = p
          · subst hap
            rw [resolve_dict_cons] at hn ⊢
            rw [hlk] at hn
            rw [lookupJ_setEntry_self]
            dsimp only at hn ⊢
            refine ih hrec hn ?_ ?_
            · intro hpre
              exact hq1 (by
                simpa using List.cons_prefix_cons.mpr (⟨rfl, hpre⟩ :
                  a = a ∧ qs <+: ps ++ [k2]))
            · intro hpre
              exact hq2 (by
                simpa using List.cons_prefix_cons.mpr (⟨rfl, hpre⟩ :
                  a = a ∧ (ps ++ [k2]) <+: qs))
          · rw [resolve_dict_cons] at hn ⊢
            rw [lookupJ_setEntry_other kvs p a child2 hap]
            exact hn

theorem Migrated_of_conforms {d : Json} (hc : conforms currentShape d = true) :
    Migrated d ∧ pyTruthy d = true := by
  cases d with
  | null => simp [conforms, currentShape] at hc
  | bool b => simp [conforms, currentShape] at hc
  | int n => simp [conforms, currentShape] at hc
  | float q => simp [conforms, currentShape] at hc
  | str s => simp [conforms, currentShape] at hc
  | arr xs => simp [conforms, currentShape] at hc
  | dict kvs =>
    simp only [currentShape, conforms, conformsReq, conformsOpt, List.all_nil,
      Bool.and_true, Bool.and_eq_true, and_true] at hc
    obtain ⟨hcc, hcpv⟩ := hc
    cases hC : lookupJ kvs "Components" with
    | none => rw [hC] at hcc; simp at hcc
    | some comps =>
    rw [hC] at hcc
    cases hPV : lookupJ kvs "Program version" with
    | none => rw [hPV] at hcpv; simp at hcpv
    | some pvv =>
    rw [hPV] at hcpv
    have hpvv : pvv = .str programVersion := by
      cases pvv <;> simp [conforms] at hcpv
      rw [hcpv]
    subst hpvv
    cases comps with
    | null => simp [conforms, componentsShape] at hcc
    | bool b => simp [conforms, componentsShape] at hcc
    | int n => simp [conforms, componentsShape] at hcc
    | float q => simp [conforms, componentsShape] at hcc
    | str s => simp [conforms, componentsShape] at hcc
    | arr xs => simp [conforms, componentsShape] at hcc
    | dict ckvs =>
    simp only [componentsShape, conforms, conformsReq, conformsOpt, List.all_cons,
      List.all_nil, Bool.and_true, Bool.and_eq_true, and_true] at hcc
    obtain ⟨⟨⟨hB, hF, hFC⟩, -⟩, hforb⟩ := hcc
    cases hBl : lookupJ ckvs "Battery" with
    | none => rw [hBl] at hB; simp at hB
    | some bat =>
    rw [hBl] at hB
    cases hFl : lookupJ ckvs "Frame" with
    | none => rw [hFl] at hF; simp at hF
    | some fra =>
    rw [hFl] at hF
    cases hFCl : lookupJ ckvs "Flight Controller" with
    | none => rw [hFCl] at hFC; simp at hFC
    | some fc =>
    rw [hFCl] at hFC
    cases bat with
    | null => simp [conforms, batteryShape] at hB
    | bool b => simp [conforms, batteryShape] at hB
    | int n => simp [conforms, batteryShape] at hB
    | float q => simp [conforms, batteryShape] at hB
    | str s => simp [conforms, batteryShape] at hB
    | arr xs => simp [conforms, batteryShape] at hB
    | dict bkvs =>
    simp only [batteryShape, conforms, conformsReq, conformsOpt, List.all_nil,
      Bool.and_true, Bool.and_eq_true, and_true] at hB
    cases hBS : lookupJ bkvs "Specifications" with
    | none => rw [hBS] at hB; simp at hB
    | some bspec =>
    rw [hBS] at hB
    cases bspec with
    | null => simp [conforms, batterySpecShape] at hB
    | bool b => simp [conforms, batterySpecShape] at hB
    | int n => simp [conforms, batterySpecShape] at hB
    | float q => simp [conforms, batterySpecShape] at hB
    | str s => simp [conforms, batterySpecShape] at hB
    | arr xs => simp [conforms, batterySpecShape] at hB
    | dict bskvs =>
    simp only [batterySpecShape, conforms, conformsReq, conformsOpt, List.all_nil,
      Bool.and_true, Bool.and_eq_true, and_true] at hB
    obtain ⟨hChem, hCap⟩ := hB
    cases hChl : lookupJ bskvs "Chemistry" with
    | none => rw [hChl] at hChem; simp at hChem
    | some chem =>
    cases hCapl : lookupJ bskvs "Capacity mAh" with
    | none => rw [hCapl] at hCap; simp at hCap
    | some cap =>
    cases fra with
    | null => simp [conforms, frameShape] at hF
    | bool b => simp [conforms, frameShape] at hF
    | int n => simp [conforms, frameShape] at hF
    | float q => simp [conforms, frameShape] at hF
    | str s => simp [conforms, frameShape] at hF
    | arr xs => simp [conforms, frameShape] at hF
    | dict fkvs =>
    simp only [frameShape, conforms, conformsReq, conformsOpt, List.all_nil,
      Bool.and_true, Bool.and_eq_true, and_true] at hF
    cases hFS : lookupJ fkvs "Specifications" with
    | none => rw [hFS] at hF; simp at hF
    | some fspec =>
    rw [hFS] at hF
    cases fspec with
    | null => simp [conforms, frameSpecShape] at hF
    | bool b => simp [conforms, frameSpecShape] at hF
    | int n => simp [conforms, frameSpecShape] at hF
    | float q => simp [conforms, frameSpecShape] at hF
    | str s => simp [conforms, frameSpecShape] at hF
    | arr xs => simp [conforms, frameSpecShape] at hF
    | dict fskvs =>
    simp only [frameSpecShape, conforms, conformsReq, conformsOpt, List.all_nil,
      Bool.and_true, Bool.and_eq_true, and_true] at hF
    obtain ⟨hTmin, hTmax⟩ := hF
    cases hTminl : lookupJ fskvs "TOW min Kg" with
    | none => rw [hTminl] at hTmin; simp at hTmin
    | some tmin =>
    cases hTmaxl : lookupJ fskvs "TOW max Kg" with
    | none => rw [hTmaxl] at hTmax; simp at hTmax
    | some tmax =>
    cases fc with
    | null => simp [conforms, flightControllerShape] at hFC
    | bool b => simp [conforms, flightControllerShape] at hFC
    | int n => simp [conforms, flightControllerShape] at hFC
    | float q => simp [conforms, flightControllerShape] at hFC
    | str s => simp [conforms, flightControllerShape] at hFC
    | arr xs => simp [conforms, flightControllerShape] at hFC
    | dict fckvs =>
    simp only [flightControllerShape, conforms, conformsReq, conformsOpt,
      List.all_nil, Bool.and_eq_true, and_true] at hFC
    obtain ⟨hSpec, -⟩ := hFC
    cases hSpecl : lookupJ fckvs "Specifications" with
    | none => rw [hSpecl] at hSpec; simp at hSpec
    | some fcspec =>
    have hlow : hasKey ckvs "GNSS receiver" = false := by
      simpa using hforb
    refine ⟨⟨?_, ?_, ?_, ?_, ?_, ?_, ?_, ?_, ?_, ?_, ?_, ?_, ?_⟩, ?_⟩
    · simp [pathOk, pyIn, hasKey, hC]
    · exact ⟨.dict ckvs, by simp [dictGet, hC], by simp [pathOk, pyIn, hasKey, hBl]⟩
    · exact ⟨.dict ckvs, by simp [dictGet, hC],
        .dict bkvs, by simp [dictGet, hBl], by simp [pathOk, pyIn, hasKey, hBS]⟩
    · exact ⟨.dict ckvs, by simp [dictGet, hC],
        .dict bkvs, by simp [dictGet, hBl],
        .dict bskvs, by simp [dictGet, hBS], by simp [pathOk, pyIn, hasKey, hChl]⟩
    · exact ⟨.dict ckvs, by simp [dictGet, hC],
        .dict bkvs, by simp [dictGet, hBl],
        .dict bskvs, by simp [dictGet, hBS], by simp [pathOk, pyIn, hasKey, hCapl]⟩
    · exact ⟨.dict ckvs, by simp [dictGet, hC], by simp [pathOk, pyIn, hasKey, hFl]⟩
    · exact ⟨.dict ckvs, by simp [dictGet, hC],
        .dict fkvs, by simp [dictGet, hFl], by simp [pathOk, pyIn, hasKey, hFS]⟩
    · exact ⟨.dict ckvs, by simp [dictGet, hC],
        .dict fkvs, by simp [dictGet, hFl],
        .dict fskvs, by simp [dictGet, hFS], by simp [pathOk, pyIn, hasKey, hTminl]⟩
    · exact ⟨.dict ckvs, by simp [dictGet, hC],
        .dict fkvs, by simp [dictGet, hFl],
        .dict fskvs, by simp [dictGet, hFS], by simp [pathOk, pyIn, hasKey, hTmaxl]⟩
    · exact ⟨.dict ckvs, by simp [dictGet, hC], by simp [pyIn, hlow]⟩
    · simp [resolve_dict_cons, hPV, resolve]
    · exact ⟨.dict ckvs, by simp [dictGet, hC], by simp [pathOk, pyIn, hasKey, hFCl]⟩
    · exact ⟨.dict ckvs, by simp [dictGet, hC],
        .dict fckvs, by simp [dictGet, hFCl], by simp [pathOk, pyIn, hasKey, hSpecl]⟩
    · simp [pyTruthy]
      exact lookupJ_ne_nil hC

theorem frame_chain_tail_preserved {d9 e : Json} {rest : List String} {w : Json}
    {d10 d11 d12 : Json}
    (h10 : renameGnss d9 = .ok d10)
    (h11 : dictSet d10 "Program version" (.str programVersion) = .ok d11)
    (h12 : ensureRec d11 ["Components"] "Flight Controller" (.dict []) = .ok d12)
    (h13 : ensureFcSpecifications d12 = .ok e)
    (hq : resolve d9 ("Components" :: "Frame" :: rest) = some w) :
    resolve e ("Components" :: "Frame" :: rest) = some w := by
  have a10 := renameGnss_preserves_resolve_comps h10 hq (by decide) (by decide)
  have a11 := dictSet_preserves_resolve_other h11 a10 (by decide)
  have a12 := ensureRec_preserves_resolve h12 a11 (not_prefixOf_second_ne (by decide))
  exact ensureFcSpecifications_preserves_resolve_comps h13 a12 (by decide)

theorem resolve_chain {d v u : Json} {p q : List String}
    (h1 : resolve d p = some v) (h2 : resolve v q = some u) :
    resolve d (p ++ q) = some u := by
  rw [resolve_append, h1]
  exact h2

theorem conforms_strConst {t : String} {v : Json}
    (h : conforms (.strConst t) v = true) : v = .str t := by
  cases v <;> simp [conforms] at h
  rw [h]

theorem dictGet_of_resolve_single {d v : Json} {k : String}
    (h : resolve d [k] = some v) : dictGet d k = .ok v := by
  cases d with
  | dict kvs =>
    rw [resolve_dict_cons] at h
    cases hl : lookupJ kvs k with
    | none => rw [hl] at h; simp at h
    | some c =>
      rw [hl] at h
      simp only [resolve, Option.some.injEq] at h
      subst h
      simp [dictGet, hl]
  | null => simp [resolve] at h
  | bool b => simp [resolve] at h
  | int n => simp [resolve] at h
  | float q => simp [resolve] at h
  | str s => simp [resolve] at h
  | arr xs => simp [resolve] at h

theorem gabs_of_resolve {d w : Json}
    (hs : resolve d ["Components", "GNSS Receiver"] = some w)
    (hn : resolve d ["Components", "GNSS receiver"] = none) :
    ∃ c, dictGet d "Components" = .ok c ∧ pyIn "GNSS receiver" c = .ok false := by
  cases d with
  | dict kvs =>
    rw [resolve_dict_cons] at hs hn
    cases hl : lookupJ kvs "Components" with
    | none => rw [hl] at hs; simp at hs
    | some c =>
      rw [hl] at hs hn
      dsimp only at hs hn
      refine ⟨c, by simp [dictGet, hl], ?_⟩
      cases c with
      | dict ckvs =>
        rw [resolve_dict_cons] at hn
        cases hl2 : lookupJ ckvs "GNSS receiver" with
        | none => simp [pyIn, hasKey, hl2]
        | some u =>
          rw [hl2] at hn
          simp [resolve] at hn
      | null => simp [resolve] at hs
      | bool b => simp [resolve] at hs
      | int n => simp [resolve] at hs
      | float q => simp [resolve] at hs
      | str s => simp [resolve] at hs
      | arr xs => simp [resolve] at hs
  | null => simp [resolve] at hs
  | bool b => simp [resolve] at hs
  | int n => simp [resolve] at hs
  | float q => simp [resolve] at hs
  | str s => simp [resolve] at hs
  | arr xs => simp [resolve] at hs

theorem batterySpecShape_presence {v : Json}
    (hc : conforms batterySpecShape v = true) :
    (∃ u, resolve v ["Chemistry"] = some u) ∧
    (∃ u, resolve v ["Capacity mAh"] = some u) := by
  cases v with
  | null => simp [conforms, batterySpecShape] at hc
  | bool b => simp [conforms, batterySpecShape] at hc
  | int n => simp [conforms, batterySpecShape] at hc
  | float q => simp [conforms, batterySpecShape] at hc
  | str s => simp [conforms, batterySpecShape] at hc
  | arr xs => simp [conforms, batterySpecShape] at hc
  | dict kvs =>
    simp only [batterySpecShape, conforms, conformsReq, conformsOpt, List.all_nil,
      Bool.and_true, Bool.and_eq_true, and_true] at hc
    obtain ⟨h1, h2⟩ := hc
    cases hl1 : lookupJ kvs "Chemistry" with
    | none => rw [hl1] at h1; simp at h1
    | some c1 =>
    cases hl2 : lookupJ kvs "Capacity mAh" with
    | none => rw [hl2] at h2; simp at h2
    | some c2 =>
    exact ⟨⟨c1, by simp [resolve_dict_cons, hl1, resolve]⟩,
      ⟨c2, by simp [resolve_dict_cons, hl2, resolve]⟩⟩

theorem frameSpecShape_presence {v : Json}
    (hc : conforms frameSpecShape v = true) :
    (∃ u, resolve v ["TOW min Kg"] = some u) ∧
    (∃ u, resolve v ["TOW max Kg"] = some u) := by
  cases v with
  | null => simp [conforms, frameSpecShape] at hc
  | bool b => simp [conforms, frameSpecShape] at hc
  | int n => simp [conforms, frameSpecShape] at hc
  | float q => simp [conforms, frameSpecShape] at hc
  | str s => simp [conforms, frameSpecShape] at hc
  | arr xs => simp [conforms, frameSpecShape] at hc
  | dict kvs =>
    simp only [frameSpecShape, conforms, conformsReq, conformsOpt, List.all_nil,
      Bool.and_true, Bool.and_eq_true, and_true] at hc
    obtain ⟨h1, h2⟩ := hc
    cases hl1 : lookupJ kvs "TOW min Kg" with
    | none => rw [hl1] at h1; simp at h1
    | some c1 =>
    cases hl2 : lookupJ kvs "TOW max Kg" with
    | none => rw [hl2] at h2; simp at h2
    | some c2 =>
    exact ⟨⟨c1, by simp [resolve_dict_cons, hl1, resolve]⟩,
      ⟨c2, by simp [resolve_dict_cons, hl2, resolve]⟩⟩

theorem batteryShape_presence {v : Json}
    (hc : conforms batteryShape v = true) :
    (∃ u, resolve v ["Specifications"] = some u) ∧
    (∃ u, resolve v ["Specifications", "Chemistry"] = some u) ∧
    (∃ u, resolve v ["Specifications", "Capacity mAh"] = some u) := by
  cases v with
  | null => simp [conforms, batteryShape] at hc
  | bool b => simp [conforms, batteryShape] at hc
  | int n => simp [conforms, batteryShape] at hc
  | float q => simp [conforms, batteryShape] at hc
  | str s => simp [conforms, batteryShape] at hc
  | arr xs => simp [conforms, batteryShape] at hc
  | dict kvs =>
    simp only [batteryShape, conforms, conformsReq, conformsOpt, List.all_nil,
      Bool.and_true, Bool.and_eq_true, and_true] at hc
    cases hl : lookupJ kvs "Specifications" with
    | none => rw [hl] at hc; simp at hc
    | some spec =>
    rw [hl] at hc
    obtain ⟨⟨u1, hu1⟩, ⟨u2, hu2⟩⟩ := batterySpecShape_presence hc
    refine ⟨⟨spec, by simp [resolve_dict_cons, hl, resolve]⟩, ⟨u1, ?_⟩, ⟨u2, ?_⟩⟩
    · rw [resolve_dict_cons, hl]
      exact hu1
    · rw [resolve_dict_cons, hl]
      exact hu2

theorem frameShape_presence {v : Json}
    (hc : conforms frameShape v = true) :
    (∃ u, resolve v ["Specifications"] = some u) ∧
    (∃ u, resolve v ["Specifications", "TOW min Kg"] = some u) ∧
    (∃ u, resolve v ["Specifications", "TOW max Kg"] = some u) := by
  cases v with
  | null => simp [conforms, frameShape] at hc
  | bool b => simp [conforms, frameShape] at hc
  | int n => simp [conforms, frameShape] at hc
  | float q => simp [conforms, frameShape] at hc
  | str s => simp [conforms, frameShape] at hc
  | arr xs => simp [conforms, frameShape] at hc
  | dict kvs =>
    simp only [frameShape, conforms, conformsReq, conformsOpt, List.all_nil,
      Bool.and_true, Bool.and_eq_true, and_true] at hc
    cases hl : lookupJ kvs "Specifications" with
    | none => rw [hl] at hc; simp at hc
    | some spec =>
    rw [hl] at hc
    obtain ⟨⟨u1, hu1⟩, ⟨u2, hu2⟩⟩ := frameSpecShape_presence hc
    refine ⟨⟨spec, by simp [resolve_dict_cons, hl, resolve]⟩, ⟨u1, ?_⟩, ⟨u2, ?_⟩⟩
    · rw [resolve_dict_cons, hl]
      exact hu1
    · rw [resolve_dict_cons, hl]
      exact hu2

theorem flightControllerShape_presence {v : Json}
    (hc : conforms flightControllerShape v = true) :
    ∃ u, resolve v ["Specifications"] = some u := by
  cases v with
  | null => simp [conforms, flightControllerShape] at hc
  | bool b => simp [conforms, flightControllerShape] at hc
  | int n => simp [conforms, flightControllerShape] at hc
  | float q => simp [conforms, flightControllerShape] at hc
  | str s => simp [conforms, flightControllerShape] at hc
  | arr xs => simp [conforms, flightControllerShape] at hc
  | dict kvs =>
    simp only [flightControllerShape, conforms, conformsReq, conformsOpt,
      List.all_nil, Bool.and_true, Bool.and_eq_true, and_true] at hc
    obtain ⟨h1, -⟩ := hc
    cases hl : lookupJ kvs "Specifications" with
    | none => rw [hl] at h1; simp at h1
    | some spec => exact ⟨spec, by simp [resolve_dict_cons, hl, resolve]⟩

theorem componentsShape_presence {v : Json}
    (hc : conforms componentsShape v = true) :
    (∃ u, resolve v ["Battery"] = some u) ∧
    (∃ u, resolve v ["Battery", "Specifications"] = some u) ∧
    (∃ u, resolve v ["Battery", "Specifications", "Chemistry"] = some u) ∧
    (∃ u, resolve v ["Battery", "Specifications", "Capacity mAh"] = some u) ∧
    (∃ u, resolve v ["Frame"] = some u) ∧
    (∃ u, resolve v ["Frame", "Specifications"] = some u) ∧
    (∃ u, resolve v ["Frame", "Specifications", "TOW min Kg"] = some u) ∧
    (∃ u, resolve v ["Frame", "Specifications", "TOW max Kg"] = some u) ∧
    (∃ u, resolve v ["Flight Controller"] = some u) ∧
    (∃ u, resolve v ["Flight Controller", "Specifications"] = some u) ∧
    (∃ ckvs, v = .dict ckvs ∧ hasKey ckvs "GNSS receiver" = false) := by
  cases v with
  | null => simp [conforms, componentsShape] at hc
  | bool b => simp [conforms, componentsShape] at hc
  | int n => simp [conforms, componentsShape] at hc
  | float q => simp [conforms, componentsShape] at hc
  | str s => simp [conforms, componentsShape] at hc
  | arr xs => simp [conforms, componentsShape] at hc
  | dict ckvs =>
    simp only [componentsShape, conforms, conformsReq, conformsOpt, List.all_cons,
      List.all_nil, Bool.and_true, Bool.and_eq_true, and_true] at hc
    obtain ⟨⟨⟨hB, hF, hFC⟩, -⟩, hforb⟩ := hc
    cases hBl : lookupJ ckvs "Battery" with
    | none => rw [hBl] at hB; simp at hB
    | some bat =>
    rw [hBl] at hB
    cases hFl : lookupJ ckvs "Frame" with
    | none => rw [hFl] at hF; simp at hF
    | some fra =>
    rw [hFl] at hF
    cases hFCl : lookupJ ckvs "Flight Controller" with
    | none => rw [hFCl] at hFC; simp at hFC
    | some fc =>
    rw [hFCl] at hFC
    obtain ⟨⟨s1, hs1⟩, ⟨s2, hs2⟩, ⟨s3, hs3⟩⟩ := batteryShape_presence hB
    obtain ⟨⟨t1, ht1⟩, ⟨t2, ht2⟩, ⟨t3, ht3⟩⟩ := frameShape_presence hF
    obtain ⟨s4, hs4⟩ := flightControllerShape_presence hFC
    refine ⟨⟨bat, by simp [resolve_dict_cons, hBl, resolve]⟩,
      ⟨s1, ?_⟩, ⟨s2, ?_⟩, ⟨s3, ?_⟩,
      ⟨fra, by simp [resolve_dict_cons, hFl, resolve]⟩,
      ⟨t1, ?_⟩, ⟨t2, ?_⟩, ⟨t3, ?_⟩,
      ⟨fc, by simp [resolve_dict_cons, hFCl, resolve]⟩,
      ⟨s4, ?_⟩, ⟨ckvs, rfl, by simpa using hforb⟩⟩
    · rw [resolve_dict_cons, hBl]
      exact hs1
    · rw [resolve_dict_cons, hBl]
      exact hs2
    · rw [resolve_dict_cons, hBl]
      exact hs3
    · rw [resolve_dict_cons, hFl]
      exact ht1
    · rw [resolve_dict_cons, hFl]
      exact ht2
    · rw [resolve_dict_cons, hFl]
      exact ht3
    · rw [resolve_dict_cons, hFCl]
      exact hs4

theorem shapeAt_node_cons (req opt : List (String × Shape)) (f : List String)
    (a : String) (ps : List String) :
    shapeAt (.node req opt f) (a :: ps) =
      (match lookupShape req a with
       | some sh => shapeAt sh ps
       | none =>
         match lookupShape opt a with
         | some sh => shapeAt sh ps
         | none => none) := rfl

theorem shapeAt_current_cases {p : List String} {s : Shape}
    (h : shapeAt currentShape p = some s) :
    p = [] ∨ p = ["Program version"] ∨ p = ["Components"] ∨
    p = ["Components", "Battery"] ∨
    p = ["Components", "Battery", "Specifications"] ∨
    p = ["Components", "Battery", "Specifications", "Chemistry"] ∨
    p = ["Components", "Battery", "Specifications", "Capacity mAh"] ∨
    p = ["Components", "Frame"] ∨
    p = ["Components", "Frame", "Specifications"] ∨
    p = ["Components", "Frame", "Specifications", "TOW min Kg"] ∨
    p = ["Components", "Frame", "Specifications", "TOW max Kg"] ∨
    p = ["Components", "Flight Controller"] ∨
    p = ["Components", "Flight Controller", "Specifications"] ∨
    p = ["Components", "Flight Controller", "Product"] ∨
    p = ["Components", "Flight Controller", "Firmware"] ∨
    p = ["Components", "Flight Controller", "Notes"] ∨
    p = ["Components", "GNSS Receiver"] := by
  cases p with
  | nil => exact Or.inl rfl
  | cons a ps =>
    by_cases hA : a = "Components"
    · subst hA
      have h1 : shapeAt componentsShape ps = some s := h
      cases ps with
      | nil => simp
      | cons b qs =>
        by_cases hB : b = "Battery"
        · subst hB
          have h2 : shapeAt batteryShape qs = some s := h1
          cases qs with
          | nil => simp
          | cons c rs =>
            by_cases hS : c = "Specifications"
            · subst hS
              have h3 : shapeAt batterySpecShape rs = some s := h2
              cases rs with
              | nil => simp
              | cons d0 ts =>
                by_cases hc1 : d0 = "Chemistry"
                · subst hc1
                  have h4 : shapeAt .any ts = some s := h3
                  cases ts with
                  | nil => simp
                  | cons x xs => exact Option.noConfusion h4
                · by_cases hc2 : d0 = "Capacity mAh"
                  · subst hc2
                    have h4 : shapeAt .any ts = some s := h3
                    cases ts with
                    | nil => simp
                    | cons x xs => exact Option.noConfusion h4
                  · exact absurd h3 (by
                      simp [batterySpecShape, shapeAt_node_cons, lookupShape,
                        Ne.symm hc1, Ne.symm hc2])
            · exact absurd h2 (by
                simp [batteryShape, shapeAt_node_cons, lookupShape, Ne.symm hS])
        · by_cases hF : b = "Frame"
          · subst hF
            have h2 : shapeAt frameShape qs = some s := h1
            cases qs with
            | nil => simp
            | cons c rs =>
              by_cases hS : c = "Specifications"
              · subst hS
                have h3 : shapeAt frameSpecShape rs = some s := h2
                cases rs with
                | nil => simp
                | cons d0 ts =>
                  by_cases hc1 : d0 = "TOW min Kg"
                  · subst hc1
                    have h4 : shapeAt .any ts = some s := h3
                    cases ts with
                    | nil => simp
                    | cons x xs => exact Option.noConfusion h4
                  · by_cases hc2 : d0 = "TOW max Kg"
                    · subst hc2
                      have h4 : shapeAt .any ts = some s := h3
                      cases ts with
                      | nil => simp
                      | cons x xs => exact Option.noConfusion h4
                    · exact absurd h3 (by
                        simp [frameSpecShape, shapeAt_node_cons, lookupShape,
                          Ne.symm hc1, Ne.symm hc2])
              · exact absurd h2 (by
                  simp [frameShape, shapeAt_node_cons, lookupShape, Ne.symm hS])
          · by_cases hFC : b = "Flight Controller"
            · subst hFC
              have h2 : shapeAt flightControllerShape qs = some s := h1
              cases qs with
              | nil => simp
              | cons c rs =>
                by_cases hS : c = "Specifications"
                · subst hS
                  have h3 : shapeAt .any rs = some s := h2
                  cases rs with
                  | nil => simp
                  | cons x xs => exact Option.noConfusion h3
                · by_cases hPr : c = "Product"
                  · subst hPr
                    have h3 : shapeAt .any rs = some s := h2
                    cases rs with
                    | nil => simp
                    | cons x xs => exact Option.noConfusion h3
                  · by_cases hFw : c = "Firmware"
                    · subst hFw
                      have h3 : shapeAt .any rs = some s := h2
                      cases rs with
                      | nil => simp
                      | cons x xs => exact Option.noConfusion h3
                    · by_cases hNo : c = "Notes"
                      · subst hNo
                        have h3 : shapeAt .any rs = some s := h2
                        cases rs with
                        | nil => simp
                        | cons x xs => exact Option.noConfusion h3
                      · exact absurd h2 (by
                          simp [flightControllerShape, shapeAt_node_cons,
                            lookupShape, Ne.symm hS, Ne.symm hPr, Ne.symm hFw,
                            Ne.symm hNo])
            · by_cases hG : b = "GNSS Receiver"
              · subst hG
                have h2 : shapeAt .any qs = some s := h1
                cases qs with
                | nil => simp
                | cons x xs => exact Option.noConfusion h2
              · exact absurd h1 (by
                  simp [componentsShape, shapeAt_node_cons, lookupShape,
                    Ne.symm hB, Ne.symm hF, Ne.symm hFC, Ne.symm hG])
    · by_cases hP : a = "Program version"
      · subst hP
        have h1 : shapeAt (.strConst programVersion) ps = some s := h
        cases ps with
        | nil => simp
        | cons x xs => exact Option.noConfusion h1
      · exact absurd h (by
          simp [currentShape, shapeAt_node_cons, lookupShape,
            Ne.symm hA, Ne.symm hP])

theorem resolve_nil (d : Json) : resolve d [] = some d := by
  cases d <;> rfl

/-- Claim C3 (status corrected): the migration preserves every value that
sits at a schema path of the current document shape and conforms to the
shape at that path — except at "Components"/"GNSS Receiver", where a
coexisting deprecated lowercase "GNSS receiver" key overwrites the value
during the rename; the amended statement therefore assumes the deprecated
key is absent when the path is the GNSS Receiver path. -/
theorem claimC3_migration_preserves_conforming (d e : Json) (p : List String)
    (s : Shape) (v : Json)
    (hok : updateVehicleComponents d = .ok e)
    (hs : shapeAt currentShape p = some s)
    (hv : resolve d p = some v)
    (hc : conforms s v = true)
    (hg : p = ["Components", "GNSS Receiver"] →
      resolve d ["Components", "GNSS receiver"] = none) :
    resolve e p = some v := by
  rcases shapeAt_current_cases hs with rfl | rfl | rfl | rfl | rfl | rfl | rfl |
    rfl | rfl | rfl | rfl | rfl | rfl | rfl | rfl | rfl | rfl
  · -- p = []
    have hs2 : some currentShape = some s := hs
    cases Option.some.inj hs2
    rw [resolve_nil] at hv
    cases Option.some.inj hv
    obtain ⟨hM, ht⟩ := Migrated_of_conforms hc
    have hno := migrate_noop hM
    rw [hno] at hok
    cases Except.ok.inj hok
    rw [resolve_nil]
  · -- p = ["Program version"]
    have hs2 : some (Shape.strConst programVersion) = some s := hs
    cases Option.some.inj hs2
    have hveq : v = .str programVersion := conforms_strConst hc
    subst hveq
    have ht := truthy_of_resolve_cons hv
    obtain ⟨d1, d2, d3, d4, d5, d6, d7, d8, d9, d10, d11, d12,
      h1, h2, h3, h4, h5, h6, h7, h8, h9, h10, h11, h12, h13⟩ :=
      updateVehicleComponents_steps ht hok
    have b11 := dictSet_resolve_self h11
    have b12 := ensureRec_preserves_resolve h12 b11 (by decide)
    exact ensureFcSpecifications_preserves_resolve_other h13 b12 (by decide)
  · -- p = ["Components"]
    have hs2 : some componentsShape = some s := hs
    cases Option.some.inj hs2
    obtain ⟨⟨uB, pB⟩, ⟨uBS, pBS⟩, ⟨uCh, pCh⟩, ⟨uCa, pCa⟩, ⟨uF, pF⟩,
      ⟨uFS, pFS⟩, ⟨uTm, pTm⟩, ⟨uTx, pTx⟩, ⟨uFC, pFC⟩, ⟨uFCS, pFCS⟩,
      ckvs, hvd, hlow⟩ := componentsShape_presence hc
    subst hvd
    have ht := truthy_of_resolve_cons hv
    obtain ⟨d1, d2, d3, d4, d5, d6, d7, d8, d9, d10, d11, d12,
      h1, h2, h3, h4, h5, h6, h7, h8, h9, h10, h11, h12, h13⟩ :=
      updateVehicleComponents_steps ht hok
    have e1 := ensureRec_of_present h1 hv
    subst e1
    have c2 := resolve_chain hv pB
    have e2 := ensureRec_of_present h2 c2
    subst e2
    have c3 := resolve_chain hv pBS
    have e3 := ensureRec_of_present h3 c3
    subst e3
    have c4 := resolve_chain hv pCh
    have e4 := ensureRec_of_present h4 c4
    subst e4
    have c5 := resolve_chain hv pCa
    have e5 := ensureRec_of_present h5 c5
    subst e5
    have c6 := resolve_chain hv pF
    have e6 := ensureRec_of_present h6 c6
    subst e6
    have c7 := resolve_chain hv pFS
    have e7 := ensureRec_of_present h7 c7
    subst e7
    have c8 := resolve_chain hv pTm
    have e8 := ensureRec_of_present h8 c8
    subst e8
    have c9 := resolve_chain hv pTx
    have e9 := ensureRec_of_present h9 c9
    subst e9
    have hfix := renameGnss_fixed (dictGet_of_resolve_single hv)
      (by simp [pyIn, hlow])
    rw [hfix] at h10
    cases Except.ok.inj h10
    have a11 := dictSet_preserves_resolve_other h11 hv (by decide)
    have c12 := resolve_chain a11 pFC
    have e12 := ensureRec_of_present h12 c12
    subst e12
    have cFCS := resolve_chain a11 pFCS
    have hfix13 := ensureFcSpecifications_fixed (pathOk_of_resolve cFCS)
    rw [hfix13] at h13
    cases Except.ok.inj h13
    exact a11
  · -- p = ["Components", "Battery"]
    have hs2 : some batteryShape = some s := hs
    cases Option.some.inj hs2
    obtain ⟨⟨uS, pS⟩, ⟨uCh, pCh⟩, ⟨uCa, pCa⟩⟩ := batteryShape_presence hc
    have ht := truthy_of_resolve_cons hv
    obtain ⟨d1, d2, d3, d4, d5, d6, d7, d8, d9, d10, d11, d12,
      h1, h2, h3, h4, h5, h6, h7, h8, h9, h10, h11, h12, h13⟩ :=
      updateVehicleComponents_steps ht hok
    obtain ⟨w1, hw1⟩ := @resolve_prefix_isSome d ["Components"] ["Battery"] v hv
    have e1 := ensureRec_of_present h1 hw1
    subst e1
    have e2 := ensureRec_of_present h2 hv
    subst e2
    have c3 := resolve_chain hv pS
    have e3 := ensureRec_of_present h3 c3
    subst e3
    have c4 := resolve_chain hv pCh
    have e4 := ensureRec_of_present h4 c4
    subst e4
    have c5 := resolve_chain hv pCa
    have e5 := ensureRec_of_present h5 c5
    subst e5
    exact battery_chain_tail_preserved h6 h7 h8 h9 h10 h11 h12 h13 hv
  · -- p = ["Components", "Battery", "Specifications"]
    have hs2 : some batterySpecShape = some s := hs
    cases Option.some.inj hs2
    obtain ⟨⟨uCh, pCh⟩, ⟨uCa, pCa⟩⟩ := batterySpecShape_presence hc
    have ht := truthy_of_resolve_cons hv
    obtain ⟨d1, d2, d3, d4, d5, d6, d7, d8, d9, d10, d11, d12,
      h1, h2, h3, h4, h5, h6, h7, h8, h9, h10, h11, h12, h13⟩ :=
      updateVehicleComponents_steps ht hok
    obtain ⟨w1, hw1⟩ := @resolve_prefix_isSome d ["Components"]
      ["Battery", "Specifications"] v hv
    obtain ⟨w2, hw2⟩ := @resolve_prefix_isSome d ["Components", "Battery"]
      ["Specifications"] v hv
    have e1 := ensureRec_of_present h1 hw1
    subst e1
    have e2 := ensureRec_of_present h2 hw2
    subst e2
    have e3 := ensureRec_of_present h3 hv
    subst e3
    have c4 := resolve_chain hv pCh
    have e4 := ensureRec_of_present h4 c4
    subst e4
    have c5 := resolve_chain hv pCa
    have e5 := ensureRec_of_present h5 c5
    subst e5
    exact battery_chain_tail_preserved h6 h7 h8 h9 h10 h11 h12 h13 hv
  · -- p = ["Components", "Battery", "Specifications", "Chemistry"]
    have ht := truthy_of_resolve_cons hv
    obtain ⟨d1, d2, d3, d4, d5, d6, d7, d8, d9, d10, d11, d12,
      h1, h2, h3, h4, h5, h6, h7, h8, h9, h10, h11, h12, h13⟩ :=
      updateVehicleComponents_steps ht hok
    obtain ⟨w1, hw1⟩ := @resolve_prefix_isSome d ["Components"]
      ["Battery", "Specifications", "Chemistry"] v hv
    obtain ⟨w2, hw2⟩ := @resolve_prefix_isSome d ["Components", "Battery"]
      ["Specifications", "Chemistry"] v hv
    obtain ⟨w3, hw3⟩ := @resolve_prefix_isSome d
      ["Components", "Battery", "Specifications"] ["Chemistry"] v hv
    have e1 := ensureRec_of_present h1 hw1
    subst e1
    have e2 := ensureRec_of_present h2 hw2
    subst e2
    have e3 := ensureRec_of_present h3 hw3
    subst e3
    have e4 := ensureRec_of_present h4 hv
    subst e4
    have a5 := ensureRec_preserves_resolve h5 hv (by decide)
    exact battery_chain_tail_preserved h6 h7 h8 h9 h10 h11 h12 h13 a5
  · -- p = ["Components", "Battery", "Specifications", "Capacity mAh"]
    have ht := truthy_of_resolve_cons hv
    obtain ⟨d1, d2, d3, d4, d5, d6, d7, d8, d9, d10, d11, d12,
      h1, h2, h3, h4, h5, h6, h7, h8, h9, h10, h11, h12, h13⟩ :=
      updateVehicleComponents_steps ht hok
    obtain ⟨w1, hw1⟩ := @resolve_prefix_isSome d ["Components"]
      ["Battery", "Specifications", "Capacity mAh"] v hv
    obtain ⟨w2, hw2⟩ := @resolve_prefix_isSome d ["Components", "Battery"]
      ["Specifications", "Capacity mAh"] v hv
    obtain ⟨w3, hw3⟩ := @resolve_prefix_isSome d
      ["Components", "Battery", "Specifications"] ["Capacity mAh"] v hv
    have e1 := ensureRec_of_present h1 hw1
    subst e1
    have e2 := ensureRec_of_present h2 hw2
    subst e2
    have e3 := ensureRec_of_present h3 hw3
    subst e3
    have a4 := ensureRec_preserves_resolve h4 hv (by decide)
    have e5 := ensureRec_of_present h5 a4
    subst e5
    exact battery_chain_tail_preserved h6 h7 h8 h9 h10 h11 h12 h13 a4
  · -- p = ["Components", "Frame"]
    have hs2 : some frameShape = some s := hs
    cases Option.some.inj hs2
    obtain ⟨⟨uS, pS⟩, ⟨uTm, pTm⟩, ⟨uTx, pTx⟩⟩ := frameShape_presence hc
    have ht := truthy_of_resolve_cons hv
    obtain ⟨d1, d2, d3, d4, d5, d6, d7, d8, d9, d10, d11, d12,
      h1, h2, h3, h4, h5, h6, h7, h8, h9, h10, h11, h12, h13⟩ :=
      updateVehicleComponents_steps ht hok
    obtain ⟨w1, hw1⟩ := @resolve_prefix_isSome d ["Components"] ["Frame"] v hv
    have e1 := ensureRec_of_present h1 hw1
    subst e1
    have a2 := ensureRec_preserves_resolve h2 hv (by decide)
    have a3 := ensureRec_preserves_resolve h3 a2 (by decide)
    have a4 := ensureRec_preserves_resolve h4 a3 (by decide)
    have a5 := ensureRec_preserves_resolve h5 a4 (by decide)
    have e6 := ensureRec_of_present h6 a5
    subst e6
    have c7 := resolve_chain a5 pS
    have e7 := ensureRec_of_present h7 c7
    subst e7
    have c8 := resolve_chain a5 pTm
    have e8 := ensureRec_of_present h8 c8
    subst e8
    have c9 := resolve_chain a5 pTx
    have e9 := ensureRec_of_present h9 c9
    subst e9
    exact frame_chain_tail_preserved h10 h11 h12 h13 a5
  · -- p = ["Components", "Frame", "Specifications"]
    have hs2 : some frameSpecShape = some s := hs
    cases Option.some.inj hs2
    obtain ⟨⟨uTm, pTm⟩, ⟨uTx, pTx⟩⟩ := frameSpecShape_presence hc
    have ht := truthy_of_resolve_cons hv
    obtain ⟨d1, d2, d3, d4, d5, d6, d7, d8, d9, d10, d11, d12,
      h1, h2, h3, h4, h5, h6, h7, h8, h9, h10, h11, h12, h13⟩ :=
      updateVehicleComponents_steps ht hok
    obtain ⟨w1, hw1⟩ := @resolve_prefix_isSome d ["Components"]
      ["Frame", "Specifications"] v hv
    have e1 := ensureRec_of_present h1 hw1
    subst e1
    have a2 := ensureRec_preserves_resolve h2 hv (by decide)
    have a3 := ensureRec_preserves_resolve h3 a2 (by decide)
    have a4 := ensureRec_preserves_resolve h4 a3 (by decide)
    have a5 := ensureRec_preserves_resolve h5 a4 (by decide)
    obtain ⟨w6, hw6⟩ := @resolve_prefix_isSome d5 ["Components", "Frame"]
      ["Specifications"] v a5
    have e6 := ensureRec_of_present h6 hw6
    subst e6
    have e7 := ensureRec_of_present h7 a5
    subst e7
    have c8 := resolve_chain a5 pTm
    have e8 := ensureRec_of_present h8 c8
    subst e8
    have c9 := resolve_chain a5 pTx
    have e9 := ensureRec_of_present h9 c9
    subst e9
    exact frame_chain_tail_preserved h10 h11 h12 h13 a5
  · -- p = ["Components", "Frame", "Specifications", "TOW min Kg"]
    have ht := truthy_of_resolve_cons hv
    obtain ⟨d1, d2, d3, d4, d5, d6, d7, d8, d9, d10, d11, d12,
      h1, h2, h3, h4, h5, h6, h7, h8, h9, h10, h11, h12, h13⟩ :=
      updateVehicleComponents_steps ht hok
    obtain ⟨w1, hw1⟩ := @resolve_prefix_isSome d ["Components"]
      ["Frame", "Specifications", "TOW min Kg"] v hv
    have e1 := ensureRec_of_present h1 hw1
    subst e1
    have a2 := ensureRec_preserves_resolve h2 hv (by decide)
    have a3 := ensureRec_preserves_resolve h3 a2 (by decide)
    have a4 := ensureRec_preserves_resolve h4 a3 (by decide)
    have a5 := ensureRec_preserves_resolve h5 a4 (by decide)
    obtain ⟨w6, hw6⟩ := @resolve_prefix_isSome d5 ["Components", "Frame"]
      ["Specifications", "TOW min Kg"] v a5
    obtain ⟨w7, hw7⟩ := @resolve_prefix_isSome d5
      ["Components", "Frame", "Specifications"] ["TOW min Kg"] v a5
    have e6 := ensureRec_of_present h6 hw6
    subst e6
    have e7 := ensureRec_of_present h7 hw7
    subst e7
    have e8 := ensureRec_of_present h8 a5
    subst e8
    have a9 := ensureRec_preserves_resolve h9 a5 (by decide)
    exact frame_chain_tail_preserved h10 h11 h12 h13 a9
  · -- p = ["Components", "Frame", "Specifications", "TOW max Kg"]
    have ht := truthy_of_resolve_cons hv
    obtain ⟨d1, d2, d3, d4, d5, d6, d7, d8, d9, d10, d11, d12,
      h1, h2, h3, h4, h5, h6, h7, h8, h9, h10, h11, h12, h13⟩ :=
      updateVehicleComponents_steps ht hok
    obtain ⟨w1, hw1⟩ := @resolve_prefix_isSome d ["Components"]
      ["Frame", "Specifications", "TOW max Kg"] v hv
    have e1 := ensureRec_of_present h1 hw1
    subst e1
    have a2 := ensureRec_preserves_resolve h2 hv (by decide)
    have a3 := ensureRec_preserves_resolve h3 a2 (by decide)
    have a4 := ensureRec_preserves_resolve h4 a3 (by decide)
    have a5 := ensureRec_preserves_resolve h5 a4 (by decide)
    obtain ⟨w6, hw6⟩ := @resolve_prefix_isSome d5 ["Components", "Frame"]
      ["Specifications", "TOW max Kg"] v a5
    obtain ⟨w7, hw7⟩ := @resolve_prefix_isSome d5
      ["Components", "Frame", "Specifications"] ["TOW max Kg"] v a5
    have e6 := ensureRec_of_present h6 hw6
    subst e6
    have e7 := ensureRec_of_present h7 hw7
    subst e7
    have a8 := ensureRec_preserves_resolve h8 a5 (by decide)
    have e9 := ensureRec_of_present h9 a8
    subst e9
    exact frame_chain_tail_preserved h10 h11 h12 h13 a8
  · -- p = ["Components", "Flight Controller"]
    have hs2 : some flightControllerShape = some s := hs
    cases Option.some.inj hs2
    obtain ⟨uS, pS⟩ := flightControllerShape_presence hc
    have ht := truthy_of_resolve_cons hv
    obtain ⟨d1, d2, d3, d4, d5, d6, d7, d8, d9, d10, d11, d12,
      h1, h2, h3, h4, h5, h6, h7, h8, h9, h10, h11, h12, h13⟩ :=
      updateVehicleComponents_steps ht hok
    obtain ⟨w1, hw1⟩ := @resolve_prefix_isSome d ["Components"]
      ["Flight Controller"] v hv
    have e1 := ensureRec_of_present h1 hw1
    subst e1
    have a2 := ensureRec_preserves_resolve h2 hv (by decide)
    have a3 := ensureRec_preserves_resolve h3 a2 (by decide)
    have a4 := ensureRec_preserves_resolve h4 a3 (by decide)
    have a5 := ensureRec_preserves_resolve h5 a4 (by decide)
    have a6 := ensureRec_preserves_resolve h6 a5 (by decide)
    have a7 := ensureRec_preserves_resolve h7 a6 (by decide)
    have a8 := ensureRec_preserves_resolve h8 a7 (by decide)
    have a9 := ensureRec_preserves_resolve h9 a8 (by decide)
    have a10 := renameGnss_preserves_resolve_comps h10 a9 (by decide) (by decide)
    have a11 := dictSet_preserves_resolve_other h11 a10 (by decide)
    have e12 := ensureRec_of_present h12 a11
    subst e12
    have cS2 := resolve_chain a11 pS
    have hfix13 := ensureFcSpecifications_fixed (pathOk_of_resolve cS2)
    rw [hfix13] at h13
    cases Except.ok.inj h13
    exact a11
  · -- p = ["Components", "Flight Controller", "Specifications"]
    have ht := truthy_of_resolve_cons hv
    obtain ⟨d1, d2, d3, d4, d5, d6, d7, d8, d9, d10, d11, d12,
      h1, h2, h3, h4, h5, h6, h7, h8, h9, h10, h11, h12, h13⟩ :=
      updateVehicleComponents_steps ht hok
    obtain ⟨w1, hw1⟩ := @resolve_prefix_isSome d ["Components"]
      ["Flight Controller", "Specifications"] v hv
    have e1 := ensureRec_of_present h1 hw1
    subst e1
    have a2 := ensureRec_preserves_resolve h2 hv (by decide)
    have a3 := ensureRec_preserves_resolve h3 a2 (by decide)
    have a4 := ensureRec_preserves_resolve h4 a3 (by decide)
    have a5 := ensureRec_preserves_resolve h5 a4 (by decide)
    have a6 := ensureRec_preserves_resolve h6 a5 (by decide)
    have a7 := ensureRec_preserves_resolve h7 a6 (by decide)
    have a8 := ensureRec_preserves_resolve h8 a7 (by decide)
    have a9 := ensureRec_preserves_resolve h9 a8 (by decide)
    have a10 := renameGnss_preserves_resolve_comps h10 a9 (by decide) (by decide)
    have a11 := dictSet_preserves_resolve_other h11 a10 (by decide)
    obtain ⟨w12, hw12⟩ := @resolve_prefix_isSome d11
      ["Components", "Flight Controller"] ["Specifications"] v a11
    have e12 := ensureRec_of_present h12 hw12
    subst e12
    have hfix13 := ensureFcSpecifications_fixed (pathOk_of_resolve a11)
    rw [hfix13] at h13
    cases Except.ok.inj h13
    exact a11
  · -- p = ["Components", "Flight Controller", "Product"]
    have ht := truthy_of_resolve_cons hv
    obtain ⟨d1, d2, d3, d4, d5, d6, d7, d8, d9, d10, d11, d12,
      h1, h2, h3, h4, h5, h6, h7, h8, h9, h10, h11, h12, h13⟩ :=
      updateVehicleComponents_steps ht hok
    obtain ⟨w1, hw1⟩ := @resolve_prefix_isSome d ["Components"]
      ["Flight Controller", "Product"] v hv
    have e1 := ensureRec_of_present h1 hw1
    subst e1
    have a2 := ensureRec_preserves_resolve h2 hv (by decide)
    have a3 := ensureRec_preserves_resolve h3 a2 (by decide)
    have a4 := ensureRec_preserves_resolve h4 a3 (by decide)
    have a5 := ensureRec_preserves_resolve h5 a4 (by decide)
    have a6 := ensureRec_preserves_resolve h6 a5 (by decide)
    have a7 := ensureRec_preserves_resolve h7 a6 (by decide)
    have a8 := ensureRec_preserves_resolve h8 a7 (by decide)
    have a9 := ensureRec_preserves_resolve h9 a8 (by decide)
    have a10 := renameGnss_preserves_resolve_comps h10 a9 (by decide) (by decide)
    have a11 := dictSet_preserves_resolve_other h11 a10 (by decide)
    obtain ⟨w12, hw12⟩ := @resolve_prefix_isSome d11
      ["Components", "Flight Controller"] ["Product"] v a11
    have e12 := ensureRec_of_present h12 hw12
    subst e12
    exact ensureFcSpecifications_preserves_resolve_fcfield h13 a11 (Or.inl rfl)
  · -- p = ["Components", "Flight Controller", "Firmware"]
    have ht := truthy_of_resolve_cons hv
    obtain ⟨d1, d2, d3, d4, d5, d6, d7, d8, d9, d10, d11, d12,
      h1, h2, h3, h4, h5, h6, h7, h8, h9, h10, h11, h12, h13⟩ :=
      updateVehicleComponents_steps ht hok
    obtain ⟨w1, hw1⟩ := @resolve_prefix_isSome d ["Components"]
      ["Flight Controller", "Firmware"] v hv
    have e1 := ensureRec_of_present h1 hw1
    subst e1
    have a2 := ensureRec_preserves_resolve h2 hv (by decide)
    have a3 := ensureRec_preserves_resolve h3 a2 (by decide)
    have a4 := ensureRec_preserves_resolve h4 a3 (by decide)
    have a5 := ensureRec_preserves_resolve h5 a4 (by decide)
    have a6 := ensureRec_preserves_resolve h6 a5 (by decide)
    have a7 := ensureRec_preserves_resolve h7 a6 (by decide)
    have a8 := ensureRec_preserves_resolve h8 a7 (by decide)
    have a9 := ensureRec_preserves_resolve h9 a8 (by decide)
    have a10 := renameGnss_preserves_resolve_comps h10 a9 (by decide) (by decide)
    have a11 := dictSet_preserves_resolve_other h11 a10 (by decide)
    obtain ⟨w12, hw12⟩ := @resolve_prefix_isSome d11
      ["Components", "Flight Controller"] ["Firmware"] v a11
    have e12 := ensureRec_of_present h12 hw12
    subst e12
    exact ensureFcSpecifications_preserves_resolve_fcfield h13 a11
      (Or.inr (Or.inl rfl))
  · -- p = ["Components", "Flight Controller", "Notes"]
    have ht := truthy_of_resolve_cons hv
    obtain ⟨d1, d2, d3, d4, d5, d6, d7, d8, d9, d10, d11, d12,
      h1, h2, h3, h4, h5, h6, h7, h8, h9, h10, h11, h12, h13⟩ :=
      updateVehicleComponents_steps ht hok
    obtain ⟨w1, hw1⟩ := @resolve_prefix_isSome d ["Components"]
      ["Flight Controller", "Notes"] v hv
    have e1 := ensureRec_of_present h1 hw1
    subst e1
    have a2 := ensureRec_preserves_resolve h2 hv (by decide)
    have a3 := ensureRec_preserves_resolve h3 a2 (by decide)
    have a4 := ensureRec_preserves_resolve h4 a3 (by decide)
    have a5 := ensureRec_preserves_resolve h5 a4 (by decide)
    have a6 := ensureRec_preserves_resolve h6 a5 (by decide)
    have a7 := ensureRec_preserves_resolve h7 a6 (by decide)
    have a8 := ensureRec_preserves_resolve h8 a7 (by decide)
    have a9 := ensureRec_preserves_resolve h9 a8 (by decide)
    have a10 := renameGnss_preserves_resolve_comps h10 a9 (by decide) (by decide)
    have a11 := dictSet_preserves_resolve_other h11 a10 (by decide)
    obtain ⟨w12, hw12⟩ := @resolve_prefix_isSome d11
      ["Components", "Flight Controller"] ["Notes"] v a11
    have e12 := ensureRec_of_present h12 hw12
    subst e12
    exact ensureFcSpecifications_preserves_resolve_fcfield h13 a11
      (Or.inr (Or.inr rfl))
  · -- p = ["Components", "GNSS Receiver"]
    have hn := hg rfl
    have ht := truthy_of_resolve_cons hv
    obtain ⟨d1, d2, d3, d4, d5, d6, d7, d8, d9, d10, d11, d12,
      h1, h2, h3, h4, h5, h6, h7, h8, h9, h10, h11, h12, h13⟩ :=
      updateVehicleComponents_steps ht hok
    obtain ⟨w1, hw1⟩ := @resolve_prefix_isSome d ["Components"]
      ["GNSS Receiver"] v hv
    have e1 := ensureRec_of_present h1 hw1
    subst e1
    have a2 := ensureRec_preserves_resolve h2 hv (by decide)
    have a3 := ensureRec_preserves_resolve h3 a2 (by decide)
    have a4 := ensureRec_preserves_resolve h4 a3 (by decide)
    have a5 := ensureRec_preserves_resolve h5 a4 (by decide)
    have a6 := ensureRec_preserves_resolve h6 a5 (by decide)
    have a7 := ensureRec_preserves_resolve h7 a6 (by decide)
    have a8 := ensureRec_preserves_resolve h8 a7 (by decide)
    have a9 := ensureRec_preserves_resolve h9 a8 (by decide)
    have n2 := ensureRec_preserves_none h2 hn (by decide) (by decide)
    have n3 := ensureRec_preserves_none h3 n2 (by decide) (by decide)
    have n4 := ensureRec_preserves_none h4 n3 (by decide) (by decide)
    have n5 := ensureRec_preserves_none h5 n4 (by decide) (by decide)
    have n6 := ensureRec_preserves_none h6 n5 (by decide) (by decide)
    have n7 := ensureRec_preserves_none h7 n6 (by decide) (by decide)
    have n8 := ensureRec_preserves_none h8 n7 (by decide) (by decide)
    have n9 := ensureRec_preserves_none h9 n8 (by decide) (by decide)
    obtain ⟨c, hgc, hb⟩ := gabs_of_resolve a9 n9
    have hfix := renameGnss_fixed hgc hb
    rw [hfix] at h10
    cases Except.ok.inj h10
    have a11 := dictSet_preserves_resolve_other h11 a9 (by decide)
    have a12 := ensureRec_preserves_resolve h12 a11 (by decide)
    exact ensureFcSpecifications_preserves_resolve_comps h13 a12 (by decide)

/-- Claim C3 counterexample: at the schema path
"Components"/"GNSS Receiver" the migration does not preserve a conforming
value when the deprecated lowercase "GNSS receiver" key coexists: the
rename pops the deprecated entry and overwrites the existing
"GNSS Receiver" value (1 becomes 2). -/
theorem claimC3_counterexample :
    shapeAt currentShape ["Components", "GNSS Receiver"] = some .any ∧
    conforms .any (.int 1) = true ∧
    resolve (Json.dict [("Components", .dict
      [("GNSS Receiver", .int 1), ("GNSS receiver", .int 2),
       ("Flight Controller", .dict [("Specifications", .dict [])])])])
      ["Components", "GNSS Receiver"] = some (.int 1) ∧
    updateVehicleComponents (Json.dict [("Components", .dict
      [("GNSS Receiver", .int 1), ("GNSS receiver", .int 2),
       ("Flight Controller", .dict [("Specifications", .dict [])])])]) =
      .ok (Json.dict [("Components", .dict
        [("GNSS Receiver", .int 2),
         ("Flight Controller", .dict [("Specifications", .dict [])]),
         ("Battery", .dict [("Specifications", .dict
           [("Chemistry", .str "Lipo"), ("Capacity mAh", .int 0)])]),
         ("Frame", .dict [("Specifications", .dict
           [("TOW min Kg", .int 1), ("TOW max Kg", .int 1)])])]),
        ("Program version", .str "2.0.0")]) ∧
    resolve (Json.dict [("Components", .dict
        [("GNSS Receiver", .int 2),
         ("Flight Controller", .dict [("Specifications", .dict [])]),
         ("Battery", .dict [("Specifications", .dict
           [("Chemistry", .str "Lipo"), ("Capacity mAh", .int 0)])]),
         ("Frame", .dict [("Specifications", .dict
           [("TOW min Kg", .int 1), ("TOW max Kg", .int 1)])])]),
        ("Program version", .str "2.0.0")])
      ["Components", "GNSS Receiver"] = some (.int 2) :=
  ⟨rfl, by simp [conforms], rfl, rfl, rfl⟩

/-- Claim C3 witness: the amended preservation statement applied to a
concrete document whose Flight Controller Specifications value survives
the migration unchanged. -/
theorem claimC3_migration_preserves_conforming_witness :
    resolve (Json.dict [("Components", .dict
      [("Flight Controller", .dict [("Specifications", .dict
        [("x", .int 5)])]),
       ("Battery", .dict [("Specifications", .dict
         [("Chemistry", .str "Lipo"), ("Capacity mAh", .int 0)])]),
       ("Frame", .dict [("Specifications", .dict
         [("TOW min Kg", .int 1), ("TOW max Kg", .int 1)])])]),
      ("Program version", .str "2.0.0")])
      ["Components", "Flight Controller", "Specifications"] =
      some (.dict [("x", .int 5)]) :=
  claimC3_migration_preserves_conforming
    (.dict [("Components", .dict [("Flight Controller", .dict
      [("Specifications", .dict [("x", .int 5)])])])])
    (.dict [("Components", .dict
      [("Flight Controller", .dict [("Specifications", .dict
        [("x", .int 5)])]),
       ("Battery", .dict [("Specifications", .dict
         [("Chemistry", .str "Lipo"), ("Capacity mAh", .int 0)])]),
       ("Frame", .dict [("Specifications", .dict
         [("TOW min Kg", .int 1), ("TOW max Kg", .int 1)])])]),
      ("Program version", .str "2.0.0")])
    ["Components", "Flight Controller", "Specifications"]
    .any
    (.dict [("x", .int 5)])
    rfl rfl rfl (by simp [conforms]) (fun h => absurd h (by decide))
